import Mathlib

/-!
Verification development for the Warp root-document store and the sharded
message-reference index.

The code is embedded shallowly.  The object store is content-addressed and
immutable, so a CID is idealized as the stored content itself: `put_dag v`
returns `v` and resolving a CID always yields the value it addresses
(deterministic addressing, injective hashing).  Recursive walks over the
shard chain are written with an explicit fuel argument so that every
definition is executable and kernel-reducible; theorems supply sufficient
fuel, and fuel exhaustion is marked by a dedicated error that no in-bounds
run produces.

Mutating operations on `&mut self` receivers are embedded as functions
returning a pair of the `Result` and the post-call state, so that frame
conditions ("nothing was persisted on this failure path") are provable
facts about the definition rather than artifacts of the embedding.
-/

set_option autoImplicit false

namespace Warp

/-- Error variants of `warp::error::Error`, translated from their uses in
the source files (the enum declaration itself is not part of the sources;
each variant below appears literally at a `return Err(...)` site or in a
deserialization failure path of the embedded functions).  `OutOfFuel` is an
artifact of the fuel-bounded embedding of unbounded recursion and is never
produced by a run given sufficient fuel; `DecodeError` stands for the
`anyhow`-wrapped deserialization failures that `Error::from` converts. -/
inductive Error where
  | MessageFound
  | MessageNotFound
  | InvalidSignature
  | DecodeError
  | FriendRequestExist
  | FriendExist
  | FriendDoesntExist
  | PublicKeyIsBlocked
  | PublicKeyIsntBlocked
  | InvalidConversation
  | InvalidCommunity
  | IdentityNotCreated
  | InvalidLength (current : Nat) (context : String) (minimum : Option Nat) (maximum : Option Nat)
  | Other
  | OutOfFuel
  deriving DecidableEq, Repr

instance {ε α : Type} [DecidableEq ε] [DecidableEq α] : DecidableEq (Except ε α) := fun x y =>
  match x, y with
  | .ok a, .ok b =>
    if h : a = b then isTrue (by subst h; rfl)
    else isFalse (fun hh => by cases hh; exact h rfl)
  | .error a, .error b =>
    if h : a = b then isTrue (by subst h; rfl)
    else isFalse (fun hh => by cases hh; exact h rfl)
  | .ok _, .error _ => isFalse (fun hh => by cases hh)
  | .error _, .ok _ => isFalse (fun hh => by cases hh)

namespace Ref

/-- Signature carried by a message document.  `MessageDocument` lives in
`store/conversation/mod.rs`, which is not among the sources; modelled from
the spec: a message document is self-signing and `verify()` checks the
embedded signature against the sender, so the signature is modelled as an
unforgeable term over the signing key and the signed fields. -/
inductive MsgSig where
  | mk (signer : Nat) (id : Nat) (body : Nat)
  deriving DecidableEq, Repr

/-- Modelled from the spec: `MessageDocument` (declared outside the
sources) is reduced to the fields the reference list uses — its `id`
(a UUID, modelled as `Nat`), its sender, an opaque body, and its
signature. -/
structure MessageDocument where
  id : Nat
  sender : Nat
  body : Nat
  signature : Option MsgSig
  deriving DecidableEq, Repr

/-- Modelled from the spec: `MessageDocument::verify` checks the message
signature against the sender key ("verifies the message's own signature
before returning it"). -/
def MessageDocument.verify (m : MessageDocument) : Except Error Unit :=
  if m.signature = some (.mk m.sender m.id m.body) then .ok () else .error .InvalidSignature

/-- A stored DAG value, as the reference list sees the object store: a
message document, a shard map `IndexMap<String, Option<Cid>>` (message ids
modelled as `Nat`), or a serialized `MessageReferenceList` node.  In the
content-addressed model a CID *is* the value it addresses. -/
inductive Val where
  | msg (m : MessageDocument)
  | natMap (entries : List (Nat × Option Val))
  | refNode (messages : Option Val) (next : Option Val)
  deriving Repr

abbrev Cid := Val

/-- `MessageReferenceList { messages: Option<Cid>, next: Option<Cid> }`. -/
structure MessageReferenceList where
  messages : Option Cid := none
  next : Option Cid := none
  deriving Repr

/-- `REFERENCE_LENGTH` from `reference.rs`. -/
def REFERENCE_LENGTH : Nat := 500

/-- Deserializing a DAG value as `IndexMap<String, Option<Cid>>`: only a
map value decodes; anything else is a decode failure. -/
def deserMap : Val → Except Error (List (Nat × Option Val))
  | .natMap es => .ok es
  | _ => .error .DecodeError

/-- Deserializing a DAG value as `MessageReferenceList`.  A serialized
node decodes to its two fields.  A shard map also decodes *successfully*:
serde's derived `Deserialize` ignores unknown map keys (message-id strings
are never the field names `messages`/`next`) and treats missing `Option`
fields as `None`, so the result is the default node.  The same holds for a
message document.  This serde behavior is what the `contains` walk in the
source actually exercises (it re-reads the shard-map CID as a node). -/
def deserRefList : Val → Except Error MessageReferenceList
  | .refNode m n => .ok ⟨m, n⟩
  | .natMap _ => .ok ⟨none, none⟩
  | .msg _ => .ok ⟨none, none⟩

/-- Deserializing a DAG value as `MessageDocument`. -/
def deserMsg : Val → Except Error MessageDocument
  | .msg m => .ok m
  | _ => .error .DecodeError

/-- `IndexMap::get` on the shard map. -/
def lookupKey : List (Nat × Option Val) → Nat → Option (Option Val)
  | [], _ => none
  | (k, v) :: es, id => if k = id then some v else lookupKey es id

/-- `IndexMap::contains_key` on the shard map. -/
def containsKey (es : List (Nat × Option Val)) (id : Nat) : Bool :=
  (lookupKey es id).isSome

/-- `IndexMap::get_mut` followed by replacing the value at `id`
(order-preserving, in place). -/
def setKey (es : List (Nat × Option Val)) (id : Nat) (v : Option Val) :
    List (Nat × Option Val) :=
  es.map fun p => if p.1 = id then (id, v) else p

/-- `MessageReferenceList::insert`.  Resolves the current shard map, fails
with `Error::MessageFound` when the id is already a key, spills into the
`next` shard when the map holds strictly more than `REFERENCE_LENGTH`
entries (persisting the child before updating the parent pointer), and
otherwise stores the message and appends `(id, Some(cid))` to the map
(`IndexMap::insert` appends fresh keys at the end). -/
def insert : Nat → MessageReferenceList → MessageDocument →
    Except Error Cid × MessageReferenceList
  | 0, st, _ => (.error .OutOfFuel, st)
  | fuel + 1, st, message =>
    let listRefsE : Except Error (List (Nat × Option Val)) :=
      match st.messages with
      | some cid => deserMap cid
      | none => .ok []
    match listRefsE with
    | .error e => (.error e, st)
    | .ok listRefs =>
      if containsKey listRefs message.id then (.error .MessageFound, st)
      else if listRefs.length > REFERENCE_LENGTH then
        let nextRefE : Except Error MessageReferenceList :=
          match st.next with
          | some cid => deserRefList cid
          | none => .ok {}
        match nextRefE with
        | .error e => (.error e, st)
        | .ok nextRef =>
          match insert fuel nextRef message with
          | (.error e, _) => (.error e, st)
          | (.ok cid, nextRef2) =>
            (.ok cid, { st with next := some (Val.refNode nextRef2.messages nextRef2.next) })
      else
        let cid := Val.msg message
        let listRefs2 := listRefs ++ [(message.id, some cid)]
        (.ok cid, { st with messages := some (Val.natMap listRefs2) })

/-- `MessageReferenceList::get`.  Attempts a sub-path resolution of the id
under the shard-map CID and decodes the entry as a message document; on
success the message must verify (a verification failure propagates).  Any
resolution failure falls through to the `next` shard; an exhausted chain is
`Error::MessageNotFound`. -/
def get : Nat → MessageReferenceList → Nat → Except Error MessageDocument
  | 0, _, _ => .error .OutOfFuel
  | fuel + 1, st, messageId =>
    match st.messages with
    | none => .error .MessageNotFound
    | some cid =>
      let direct : Except Error MessageDocument :=
        match deserMap cid with
        | .error e => .error e
        | .ok es =>
          match lookupKey es messageId with
          | some (some v) => deserMsg v
          | _ => .error .DecodeError
      match direct with
      | .ok messageDocument =>
        match messageDocument.verify with
        | .ok _ => .ok messageDocument
        | .error e => .error e
      | .error _ =>
        match st.next with
        | none => .error .MessageNotFound
        | some ncid =>
          match deserRefList ncid with
          | .error e => .error e
          | .ok refsList => get fuel refsList messageId

/-- `MessageReferenceList::contains`.  Resolution failures collapse to
`false`.  Note the recursion of the source: after missing in the current
shard map it re-reads the *messages* CID (not `self.next`) and
deserializes it as a `MessageReferenceList` — which succeeds with a
default node — so the walk never actually reaches the next shard. -/
def contains : Nat → MessageReferenceList → Nat → Bool
  | 0, _, _ => false
  | fuel + 1, st, messageId =>
    match st.messages with
    | none => false
    | some cid =>
      match deserMap cid with
      | .error _ => false
      | .ok list =>
        if containsKey list messageId && ((lookupKey list messageId).getD none).isSome then
          true
        else
          match deserRefList cid with
          | .error _ => false
          | .ok refsList => contains fuel refsList messageId

/-- `MessageReferenceList::count`.  Counts the non-tombstoned entries of
the current shard map, then continues into `next`; resolution failures
collapse to the count accumulated so far. -/
def count : Nat → MessageReferenceList → Nat
  | 0, _ => 0
  | fuel + 1, st =>
    match st.messages with
    | none => 0
    | some cid =>
      match deserMap cid with
      | .error _ => 0
      | .ok list =>
        let c := (list.filter fun p => p.2.isSome).length
        match st.next with
        | none => c
        | some ncid =>
          match deserRefList ncid with
          | .error _ => c
          | .ok refsList => count fuel refsList + c

/-- `MessageReferenceList::remove`.  Fails with `Error::MessageNotFound`
when the shard chain ends or when the owning entry is already tombstoned;
otherwise clears the entry value in place and persists the updated map
(the key is never removed).  When the current map lacks the key, the call
recurses into `next` and then persists the updated child pointer. -/
def remove : Nat → MessageReferenceList → Nat →
    Except Error Unit × MessageReferenceList
  | 0, st, _ => (.error .OutOfFuel, st)
  | fuel + 1, st, messageId =>
    match st.messages with
    | none => (.error .MessageNotFound, st)
    | some cid =>
      match deserMap cid with
      | .error e => (.error e, st)
      | .ok list =>
        match lookupKey list messageId with
        | some item =>
          if item.isNone then (.error .MessageNotFound, st)
          else
            (.ok (), { st with messages := some (Val.natMap (setKey list messageId none)) })
        | none =>
          match st.next with
          | none => (.error .MessageNotFound, st)
          | some ncid =>
            match deserRefList ncid with
            | .error e => (.error e, st)
            | .ok refs =>
              match remove fuel refs messageId with
              | (.error e, _) => (.error e, st)
              | (.ok _, refs2) =>
                (.ok (), { st with next := some (Val.refNode refs2.messages refs2.next) })

/-- View of a `MessageReferenceList` as the DAG value `put_dag` stores for
it. -/
def stVal (st : MessageReferenceList) : Val := .refNode st.messages st.next

/-- Inverse of `stVal` on serialized nodes (anything else deserializes to
the default node, mirroring `deserRefList`). -/
def mrlOf : Val → MessageReferenceList
  | .refNode m n => ⟨m, n⟩
  | _ => ⟨none, none⟩

/-- Resolvability of a shard chain: every `messages` field is absent or a
shard map, and every `next` field is absent or a well-formed serialized
node. -/
def chainWF : Val → Bool
  | .refNode m n =>
    (match m with
     | none => true
     | some (.natMap _) => true
     | some _ => false) &&
    (match n with
     | none => true
     | some v => chainWF v)
  | _ => false

/-- Number of shards in a chain (a non-node value counts as a chain end). -/
def chainDepth : Val → Nat
  | .refNode _ n =>
    (match n with
     | none => 0
     | some v => chainDepth v) + 1
  | _ => 1

/-- Some shard map of the chain holds `id` as a key (live or tombstoned). -/
def chainHasKey : Val → Nat → Bool
  | .refNode m n, id =>
    (match m with
     | some (.natMap es) => containsKey es id
     | _ => false) ||
    (match n with
     | some v => chainHasKey v id
     | none => false)
  | _, _ => false

/-- The value stored for `id` by the first shard whose map holds the key,
following the traversal order of `remove` (a shard without a resolvable
map, or an exhausted chain, yields `none`). -/
def chainFind : Val → Nat → Option (Option Val)
  | .refNode (some (.natMap es)) n, id =>
    if containsKey es id then lookupKey es id
    else
      match n with
      | some v2 => chainFind v2 id
      | none => none
  | _, _ => none

/-- Specification-level tombstoning: clear the value of `id` in the first
shard map holding the key, leaving everything else identical. -/
def chainTomb : Val → Nat → Val
  | .refNode (some (.natMap es)) n, id =>
    if containsKey es id then .refNode (some (.natMap (setKey es id none))) n
    else
      .refNode (some (.natMap es))
        (match n with
         | some v => some (chainTomb v id)
         | none => none)
  | v, _ => v

/-- Per-shard key lists of a chain, in chain order. -/
def shardKeys : Val → List (List Nat)
  | .refNode m n =>
    (match m with
     | some (.natMap es) => es.map fun p => p.1
     | _ => []) ::
    (match n with
     | some v => shardKeys v
     | none => [])
  | _ => []

/-- Per-shard entry lists of a chain with the entry of `id` dropped:
everything `remove` must leave untouched. -/
def shardEntriesSans (id : Nat) : Val → List (List (Nat × Option Val))
  | .refNode m n =>
    (match m with
     | some (.natMap es) => es.filter fun p => p.1 != id
     | _ => []) ::
    (match n with
     | some v => shardEntriesSans id v
     | none => [])
  | _ => []

/-- A validly signed message document with id `i` (concrete test data). -/
def mkMsg (i : Nat) : MessageDocument := ⟨i, 7, i, some (.mk 7 i i)⟩

/-- Sequential insertion of a batch of messages, stopping at the first
failure (each step is one `insert` call on the running list). -/
def insertAll : Nat → List MessageDocument → MessageReferenceList →
    Except Error MessageReferenceList
  | _, [], st => .ok st
  | fuel, m :: rest, st =>
    match insert fuel st m with
    | (.ok _, st2) => insertAll fuel rest st2
    | (.error e, _) => .error e

/-- The messages with ids `0, 1, ..., n-1` (pairwise distinct ids). -/
def msgs (n : Nat) : List MessageDocument := (List.range n).map mkMsg

/-- The shard map produced by inserting `msgs k` in order. -/
def mapRange (k : Nat) : List (Nat × Option Val) :=
  (List.range k).map fun i => (i, some (.msg (mkMsg i)))

/-- The chain has no second shard. -/
def nextIsNone (st : MessageReferenceList) : Bool := st.next.isNone

/-- The first shard map holds `k` as a key. -/
def shardHasKey (st : MessageReferenceList) (k : Nat) : Bool :=
  match st.messages with
  | some (.natMap es) => containsKey es k
  | _ => false

/-- The second shard map holds `k` as a key. -/
def sndShardHasKey (st : MessageReferenceList) (k : Nat) : Bool :=
  match st.next with
  | some (.refNode (some (.natMap es)) _) => containsKey es k
  | _ => false

end Ref

namespace Root

/-- Public keys are modelled by the DID they certify. -/
abbrev DID := Nat

/-- `Request` from `store/identity.rs`, which is not among the sources;
modelled from the spec and from its construction sites in `migrate`:
an in- or outbound request carrying a DID and a timestamp. -/
inductive Request where
  | inR (did : DID) (date : Nat)
  | outR (did : DID) (date : Nat)
  deriving DecidableEq, Repr

/-- The JSON plaintext of an encrypted list blob: either a `Vec<DID>` or a
`Vec<Request>`.  Decoding one shape as the other fails. -/
inductive Plain where
  | dids (l : List DID)
  | reqs (l : List Request)
  deriving DecidableEq, Repr

/-- An encrypted blob.  Modelled from the spec: `ecdh_encrypt`/`ecdh_decrypt`
(declared outside the sources) self-encrypt against the account key with no
counterpart key, so the blob is modelled as a perfect cipher: payload
recoverable exactly under the encrypting key. -/
structure Enc where
  key : Nat
  plain : Plain
  deriving DecidableEq, Repr

def ecdhEncrypt (kp : Nat) (p : Plain) : Enc := ⟨kp, p⟩

def ecdhDecrypt (kp : Nat) (e : Enc) : Except Error Plain :=
  if e.key = kp then .ok e.plain else .error .DecodeError

/-- The read half of the encrypted-list pattern: resolve the optional CID,
decrypt, JSON-decode as `Vec<DID>`; any failure collapses to the empty
list (`unwrap_or_default`). -/
def decodeDids (kp : Nat) (o : Option Enc) : List DID :=
  match o with
  | none => []
  | some e =>
    match ecdhDecrypt kp e with
    | .ok (.dids l) => l
    | _ => []

/-- Same as `decodeDids` for `Vec<Request>` blobs. -/
def decodeReqs (kp : Nat) (o : Option Enc) : List Request :=
  match o with
  | none => []
  | some e =>
    match ecdhDecrypt kp e with
    | .ok (.reqs l) => l
    | _ => []

/-- Modelled from the spec: `VecExt::insert_item` (declared outside the
sources) pushes the item and answers `true` when it was absent, answers
`false` leaving the list alone when it was already present. -/
def insertItem {α : Type} [DecidableEq α] (l : List α) (x : α) : Bool × List α :=
  if x ∈ l then (false, l) else (true, l ++ [x])

/-- Modelled from the spec: `VecExt::remove_item` removes the item and
answers `true` when present, answers `false` when absent. -/
def removeItem {α : Type} [DecidableEq α] (l : List α) (x : α) : Bool × List α :=
  if x ∈ l then (true, l.erase x) else (false, l)

/-- `IndexMap<String, String>` lookup. -/
def metaLookup : List (String × String) → String → Option String
  | [], _ => none
  | (k, v) :: es, key => if k = key then some v else metaLookup es key

def metaContains (m : List (String × String)) (k : String) : Bool :=
  (metaLookup m k).isSome

/-- `IndexMap::insert`: replace in place when the key exists, append
otherwise. -/
def metaInsert (m : List (String × String)) (k v : String) : List (String × String) :=
  if metaContains m k then m.map fun p => if p.1 = k then (k, v) else p
  else m ++ [(k, v)]

/-- `IndexMap::shift_remove`: drop the entry, shifting the rest. -/
def metaShiftRemove (m : List (String × String)) (k : String) : List (String × String) :=
  m.filter fun p => p.1 != k

/-- Modelled from the spec: the metadata bounds are declared in
`store/mod.rs`, which is not among the sources; the numeric values here
are placeholders — no theorem depends on them, only on the comparisons
the code performs against them. -/
def MAX_METADATA_KEY_LENGTH : Nat := 16

/-- Modelled from the spec: see `MAX_METADATA_KEY_LENGTH`. -/
def MAX_METADATA_VALUE_LENGTH : Nat := 64

/-- Modelled from the spec: see `MAX_METADATA_KEY_LENGTH`. -/
def MAX_METADATA_ENTRIES : Nat := 5

/-- Display metadata of an identity document: a status indicator and the
optional CID of the bounded key/value map. -/
structure IdentityMetadata where
  status : Option Nat := none
  arb_data : Option (List (String × String)) := none
  deriving DecidableEq, Repr

/-- The signed fields of an identity document. -/
structure IdentityCore where
  did : DID
  username : String
  metadata : IdentityMetadata
  deriving DecidableEq, Repr

/-- Modelled from the spec: signatures are unforgeable terms over the
signing key and the canonical encoding of all fields but the signature. -/
inductive IdentSig where
  | mk (signer : DID) (core : IdentityCore)
  deriving DecidableEq, Repr

/-- Modelled from the spec: `IdentityDocument` (declared outside the
sources) reduced to the fields the root store uses — the account DID
(public key), username, display metadata, and its signature. -/
structure IdentityDocument where
  did : DID
  username : String
  metadata : IdentityMetadata
  signature : Option IdentSig := none
  deriving DecidableEq, Repr

def IdentityDocument.core (d : IdentityDocument) : IdentityCore :=
  ⟨d.did, d.username, d.metadata⟩

/-- `IdentityDocument::sign`: replace the signature with one by `kp` over
the other fields. -/
def IdentityDocument.signDoc (kp : Nat) (d : IdentityDocument) : IdentityDocument :=
  { d with signature := some (.mk kp d.core) }

/-- `IdentityDocument::verify`: the signature must be by the embedded
public key over the other fields. -/
def IdentityDocument.verify (d : IdentityDocument) : Except Error Unit :=
  if d.signature = some (.mk d.did d.core) then .ok () else .error .InvalidSignature

/-- The signed fields of a conversation document. -/
structure ConvCore where
  id : Nat
  creator : DID
  deleted : Bool
  deriving DecidableEq, Repr

inductive ConvSig where
  | mk (signer : DID) (core : ConvCore)
  deriving DecidableEq, Repr

/-- Modelled from the spec: `ConversationDocument` (declared outside the
sources) reduced to what the root store inspects — stable id, creator,
the `deleted` tombstone flag, and its signature. -/
structure ConversationDocument where
  id : Nat
  creator : DID
  deleted : Bool
  signature : Option ConvSig := none
  deriving DecidableEq, Repr

def ConversationDocument.core (d : ConversationDocument) : ConvCore :=
  ⟨d.id, d.creator, d.deleted⟩

def ConversationDocument.signDoc (kp : Nat) (d : ConversationDocument) : ConversationDocument :=
  { d with signature := some (.mk kp d.core) }

def ConversationDocument.verify (d : ConversationDocument) : Except Error Unit :=
  if d.signature = some (.mk d.creator d.core) then .ok () else .error .InvalidSignature

/-- The signed fields of a community document. -/
structure CommCore where
  id : Nat
  creator : DID
  deleted : Bool
  deriving DecidableEq, Repr

inductive CommSig where
  | mk (signer : DID) (core : CommCore)
  deriving DecidableEq, Repr

/-- Modelled from the spec: `CommunityDocument`, as `ConversationDocument`. -/
structure CommunityDocument where
  id : Nat
  creator : DID
  deleted : Bool
  signature : Option CommSig := none
  deriving DecidableEq, Repr

def CommunityDocument.core (d : CommunityDocument) : CommCore :=
  ⟨d.id, d.creator, d.deleted⟩

def CommunityDocument.verify (d : CommunityDocument) : Except Error Unit :=
  if d.signature = some (.mk d.creator d.core) then .ok () else .error .InvalidSignature

/-- The signed fields of a root document.  Each field is the resolved
content of the CID the Rust struct stores (content-addressed model). -/
structure RootCore where
  identity : IdentityDocument
  friends : Option Enc
  blocks : Option Enc
  block_by : Option Enc
  request : Option Enc
  conversations : Option (List (Nat × ConversationDocument))
  communities : Option (List (Nat × CommunityDocument))
  keystore : Option (List (Nat × Nat))
  file_index : Option Nat
  deriving DecidableEq, Repr

inductive RootSig where
  | mk (signer : DID) (core : RootCore)
  deriving DecidableEq, Repr

/-- Modelled from the spec: `RootDocument` (declared outside the sources;
field list from the spec and from every access in `root.rs`). -/
structure RootDocument where
  identity : IdentityDocument
  friends : Option Enc := none
  blocks : Option Enc := none
  block_by : Option Enc := none
  request : Option Enc := none
  conversations : Option (List (Nat × ConversationDocument)) := none
  communities : Option (List (Nat × CommunityDocument)) := none
  keystore : Option (List (Nat × Nat)) := none
  file_index : Option Nat := none
  signature : Option RootSig := none
  deriving DecidableEq, Repr

def RootDocument.core (d : RootDocument) : RootCore :=
  ⟨d.identity, d.friends, d.blocks, d.block_by, d.request,
   d.conversations, d.communities, d.keystore, d.file_index⟩

/-- `RootDocument::sign`. -/
def RootDocument.signDoc (kp : Nat) (d : RootDocument) : RootDocument :=
  { d with signature := some (.mk kp d.core) }

/-- Modelled from the spec: `RootDocument::verify` checks the signature
against the embedded public key (the identity document's DID) over all
other fields and recursively re-verifies the nested identity document. -/
def RootDocument.verify (d : RootDocument) : Except Error Unit :=
  if d.signature = some (.mk d.identity.did d.core) then d.identity.verify
  else .error .InvalidSignature

/-- The mutable state behind `RootDocumentInner` plus the object-store
effects the claims observe: the account keypair (modelled by its DID),
the current root CID, the set of recursively pinned root CIDs, and the
local pointer-store entry.  A root CID is the signed document itself. -/
structure State where
  kp : Nat
  cid : Option RootDocument
  pins : List RootDocument
  ptrStore : Option RootDocument
  deriving DecidableEq, Repr

/-- `insert_pin(cid).recursive()` on the pin set. -/
def insertPin (pins : List RootDocument) (c : RootDocument) : List RootDocument :=
  if c ∈ pins then pins else pins ++ [c]

/-- `is_pinned(cid)` restricted to root CIDs: direct membership in the pin
set (distinct signed roots never reference each other, so recursive
reachability adds nothing among root CIDs). -/
def isPinned (pins : List RootDocument) (c : RootDocument) : Bool :=
  decide (c ∈ pins)

/-- `remove_pin(cid).recursive()`. -/
def removePin (pins : List RootDocument) (c : RootDocument) : List RootDocument :=
  pins.erase c

/-- `RootDocumentInner::get_root_document`: resolve the current CID from
the pointer (`Error::Other` when none), then verify. -/
def getRootDocument (st : State) : Except Error RootDocument :=
  match st.cid with
  | none => .error .Other
  | some d =>
    match d.verify with
    | .ok _ => .ok d
    | .error e => .error e

/-- `RootDocumentInner::identity`: read the root, resolve the identity
CID, verify the identity document. -/
def identityOf (st : State) : Except Error IdentityDocument :=
  match getRootDocument st with
  | .error e => .error e
  | .ok root =>
    match root.identity.verify with
    | .ok _ => .ok root.identity
    | .error e => .error e

/-- `RootDocumentInner::_set_root_document`: sign, verify as a precaution
(aborting before any persistence on failure), persist the new root,
recursively pin it, swap the in-memory pointer and the pointer store, then
unpin the previous CID when it differs from the new one and is still
pinned. -/
def setRootDocument (st : State) (document : RootDocument) : Except Error Unit × State :=
  let signed := RootDocument.signDoc st.kp document
  match signed.verify with
  | .error e => (.error e, st)
  | .ok _ =>
    let rootCid := signed
    let pins1 := insertPin st.pins rootCid
    let oldCid := st.cid
    let st1 : State := { st with cid := some rootCid, pins := pins1, ptrStore := some rootCid }
    match oldCid with
    | some old =>
      if old ≠ rootCid && isPinned pins1 old then
        (.ok (), { st1 with pins := removePin pins1 old })
      else (.ok (), st1)
    | none => (.ok (), st1)

/-- `setSeq` runs `set` over a list of documents, stopping at the first
failure. -/
def setSeq : State → List RootDocument → Except Error State
  | st, [] => .ok st
  | st, d :: rest =>
    match setRootDocument st d with
    | (.ok _, st2) => setSeq st2 rest
    | (.error e, _) => .error e

/-- `RootDocumentInner::add_friend`. -/
def addFriend (st : State) (did : DID) : Except Error Unit × State :=
  match getRootDocument st with
  | .error e => (.error e, st)
  | .ok document =>
    let list := decodeDids st.kp document.friends
    match insertItem list did with
    | (false, _) => (.error .FriendExist, st)
    | (true, list2) =>
      setRootDocument st
        { document with
          friends := if list2.isEmpty then none else some (ecdhEncrypt st.kp (.dids list2)) }

/-- `RootDocumentInner::remove_friend`. -/
def removeFriend (st : State) (did : DID) : Except Error Unit × State :=
  match getRootDocument st with
  | .error e => (.error e, st)
  | .ok document =>
    let list := decodeDids st.kp document.friends
    match removeItem list did with
    | (false, _) => (.error .FriendDoesntExist, st)
    | (true, list2) =>
      setRootDocument st
        { document with
          friends := if list2.isEmpty then none else some (ecdhEncrypt st.kp (.dids list2)) }

/-- `RootDocumentInner::block_key`. -/
def blockKey (st : State) (did : DID) : Except Error Unit × State :=
  match getRootDocument st with
  | .error e => (.error e, st)
  | .ok document =>
    let list := decodeDids st.kp document.blocks
    match insertItem list did with
    | (false, _) => (.error .PublicKeyIsBlocked, st)
    | (true, list2) =>
      setRootDocument st
        { document with
          blocks := if list2.isEmpty then none else some (ecdhEncrypt st.kp (.dids list2)) }

/-- `RootDocumentInner::unblock_key`. -/
def unblockKey (st : State) (did : DID) : Except Error Unit × State :=
  match getRootDocument st with
  | .error e => (.error e, st)
  | .ok document =>
    let list := decodeDids st.kp document.blocks
    match removeItem list did with
    | (false, _) => (.error .PublicKeyIsntBlocked, st)
    | (true, list2) =>
      setRootDocument st
        { document with
          blocks := if list2.isEmpty then none else some (ecdhEncrypt st.kp (.dids list2)) }

/-- `RootDocumentInner::add_blockby_key`.  Note the error variant the
source returns when the key is already present. -/
def addBlockbyKey (st : State) (did : DID) : Except Error Unit × State :=
  match getRootDocument st with
  | .error e => (.error e, st)
  | .ok document =>
    let list := decodeDids st.kp document.block_by
    match insertItem list did with
    | (false, _) => (.error .PublicKeyIsntBlocked, st)
    | (true, list2) =>
      setRootDocument st
        { document with
          block_by := if list2.isEmpty then none else some (ecdhEncrypt st.kp (.dids list2)) }

/-- `RootDocumentInner::remove_blockby_key`. -/
def removeBlockbyKey (st : State) (did : DID) : Except Error Unit × State :=
  match getRootDocument st with
  | .error e => (.error e, st)
  | .ok document =>
    let list := decodeDids st.kp document.block_by
    match removeItem list did with
    | (false, _) => (.error .PublicKeyIsntBlocked, st)
    | (true, list2) =>
      setRootDocument st
        { document with
          block_by := if list2.isEmpty then none else some (ecdhEncrypt st.kp (.dids list2)) }

/-- `RootDocumentInner::add_request`. -/
def addRequest (st : State) (request : Request) : Except Error Unit × State :=
  match getRootDocument st with
  | .error e => (.error e, st)
  | .ok document =>
    let list := decodeReqs st.kp document.request
    match insertItem list request with
    | (false, _) => (.error .FriendRequestExist, st)
    | (true, list2) =>
      setRootDocument st
        { document with
          request := if list2.isEmpty then none else some (ecdhEncrypt st.kp (.reqs list2)) }

/-- `RootDocumentInner::remove_request`.  Note the error variant the
source returns when the request is absent. -/
def removeRequest (st : State) (request : Request) : Except Error Unit × State :=
  match getRootDocument st with
  | .error e => (.error e, st)
  | .ok document =>
    let list := decodeReqs st.kp document.request
    match removeItem list request with
    | (false, _) => (.error .FriendRequestExist, st)
    | (true, list2) =>
      setRootDocument st
        { document with
          request := if list2.isEmpty then none else some (ecdhEncrypt st.kp (.reqs list2)) }

/-- `RootDocumentInner::add_metadata_key` (`key.len()` is the UTF-8 byte
length). -/
def addMetadataKey (st : State) (key val : String) : Except Error Unit × State :=
  match getRootDocument st with
  | .error e => (.error e, st)
  | .ok root =>
    match identityOf st with
    | .error e => (.error e, st)
    | .ok document =>
      if key.utf8ByteSize > MAX_METADATA_KEY_LENGTH then
        (.error (.InvalidLength key.utf8ByteSize key none (some MAX_METADATA_KEY_LENGTH)), st)
      else if val.utf8ByteSize > MAX_METADATA_VALUE_LENGTH then
        (.error (.InvalidLength val.utf8ByteSize val none (some MAX_METADATA_VALUE_LENGTH)), st)
      else
        let map := document.metadata.arb_data.getD []
        if !metaContains map key && decide (map.length ≥ MAX_METADATA_ENTRIES) then
          (.error .Other, st)
        else
          let map2 := metaInsert map key val
          let document2 :=
            { document with metadata := { document.metadata with arb_data := some map2 } }
          let identity2 := IdentityDocument.signDoc st.kp document2
          setRootDocument st { root with identity := identity2 }

/-- `RootDocumentInner::remove_metadata_key`. -/
def removeMetadataKey (st : State) (key : String) : Except Error Unit × State :=
  match getRootDocument st with
  | .error e => (.error e, st)
  | .ok root =>
    match identityOf st with
    | .error e => (.error e, st)
    | .ok document =>
      let map := document.metadata.arb_data.getD []
      if !metaContains map key then (.error .Other, st)
      else
        let map2 := metaShiftRemove map key
        let document2 :=
          { document with metadata := { document.metadata with arb_data := some map2 } }
        let identity2 := IdentityDocument.signDoc st.kp document2
        setRootDocument st { root with identity := identity2 }

/-- Ordered-map lookup for the conversation/community maps. -/
def lookupNat {α : Type} : List (Nat × α) → Nat → Option α
  | [], _ => none
  | (k, v) :: es, id => if k = id then some v else lookupNat es id

/-- `RootDocumentInner::get_conversation_document`: resolve the map CID
(`Error::InvalidConversation` when absent), resolve the entry at the id
sub-path, verify, and reject soft-deleted documents. -/
def getConversationDocument (st : State) (id : Nat) : Except Error ConversationDocument :=
  match getRootDocument st with
  | .error e => .error e
  | .ok document =>
    match document.conversations with
    | none => .error .InvalidConversation
    | some m =>
      match lookupNat m id with
      | none => .error .DecodeError
      | some doc =>
        match doc.verify with
        | .error e => .error e
        | .ok _ => if doc.deleted then .error .InvalidConversation else .ok doc

/-- `RootDocumentInner::get_community_document`. -/
def getCommunityDocument (st : State) (id : Nat) : Except Error CommunityDocument :=
  match getRootDocument st with
  | .error e => .error e
  | .ok document =>
    match document.communities with
    | none => .error .InvalidCommunity
    | some m =>
      match lookupNat m id with
      | none => .error .DecodeError
      | some doc =>
        match doc.verify with
        | .error e => .error e
        | .ok _ => if doc.deleted then .error .InvalidCommunity else .ok doc

/-- A document this account can re-sign so that the precautionary
verification in `set` passes: its identity is keyed by the account key and
is itself validly signed. -/
def validFor (kp : Nat) (d : RootDocument) : Prop :=
  d.identity.did = kp ∧ d.identity.verify = .ok ()

instance (kp : Nat) (d : RootDocument) : Decidable (validFor kp d) := by
  unfold validFor; infer_instance

/-- States reachable by successful `set` calls from a fresh account: no
root yet and nothing pinned, or a current root that is exactly the one
pinned CID. -/
def GoodState (st : State) : Prop :=
  (st.cid = none ∧ st.pins = []) ∨ (∃ r, st.cid = some r ∧ st.pins = [r])

/-- A validly signed sample identity document for concrete witnesses. -/
def sampleIdentity : IdentityDocument :=
  IdentityDocument.signDoc 1 ⟨1, "a", ⟨none, none⟩, none⟩

/-- A state for account 1 whose current root is the given document signed
by that account, pinned, with the pointer store set — the state a
successful `set` leaves behind. -/
def stateOf (d : RootDocument) : State :=
  ⟨1, some (RootDocument.signDoc 1 d), [RootDocument.signDoc 1 d],
   some (RootDocument.signDoc 1 d)⟩

end Root

namespace Ref

lemma insert_step_small (fuel : Nat) (st : MessageReferenceList) (es : List (Nat × Option Val))
    (m : MessageDocument) (hm : st.messages = some (.natMap es))
    (hf : containsKey es m.id = false) (hl : es.length ≤ REFERENCE_LENGTH) :
    insert (fuel + 1) st m =
      (.ok (.msg m), { st with messages := some (.natMap (es ++ [(m.id, some (.msg m))])) }) := by
  simp only [insert, hm, deserMap, hf, Bool.false_eq_true, if_false]
  rw [if_neg (by omega)]

lemma insert_step_empty (fuel : Nat) (st : MessageReferenceList) (m : MessageDocument)
    (hm : st.messages = none) :
    insert (fuel + 1) st m =
      (.ok (.msg m), { st with messages := some (.natMap [(m.id, some (.msg m))]) }) := by
  simp only [insert, hm]
  rfl

lemma insert_step_spill_empty (fuel : Nat) (st : MessageReferenceList) (es : List (Nat × Option Val))
    (m : MessageDocument) (hm : st.messages = some (.natMap es))
    (hf : containsKey es m.id = false) (hl : es.length > REFERENCE_LENGTH) (hn : st.next = none) :
    insert (fuel + 2) st m =
      (.ok (.msg m),
       { st with next := some (.refNode (some (.natMap [(m.id, some (.msg m))])) none) }) := by
  simp only [insert, hm, deserMap, hf, Bool.false_eq_true, if_false, hn]
  rw [if_pos (by omega)]
  rfl

lemma insertAll_append (fuel : Nat) (xs ys : List MessageDocument) (st : MessageReferenceList) :
    insertAll fuel (xs ++ ys) st =
      match insertAll fuel xs st with
      | .ok st2 => insertAll fuel ys st2
      | .error e => .error e := by
  induction xs generalizing st with
  | nil => simp [insertAll]
  | cons x xs ih =>
    simp only [List.cons_append, insertAll]
    cases insert fuel st x with
    | mk r st2 => cases r <;> simp [ih]

lemma mapRange_succ (k : Nat) :
    mapRange (k + 1) = mapRange k ++ [(k, some (.msg (mkMsg k)))] := by
  simp [mapRange, List.range_succ]

lemma mapRange_length (k : Nat) : (mapRange k).length = k := by
  simp [mapRange]

lemma lookupKey_append (xs ys : List (Nat × Option Val)) (id : Nat) :
    lookupKey (xs ++ ys) id =
      match lookupKey xs id with
      | some v => some v
      | none => lookupKey ys id := by
  induction xs with
  | nil => simp [lookupKey]
  | cons x xs ih =>
    obtain ⟨k, v⟩ := x
    by_cases h : k = id <;> simp [lookupKey, h, ih]

lemma lookupKey_mapRange_ge (k id : Nat) (h : k ≤ id) : lookupKey (mapRange k) id = none := by
  induction k with
  | zero => rfl
  | succ k ih =>
    rw [mapRange_succ, lookupKey_append, ih (by omega)]
    simp [lookupKey]
    omega

lemma lookupKey_mapRange_lt (k id : Nat) (h : id < k) :
    lookupKey (mapRange k) id = some (some (.msg (mkMsg id))) := by
  induction k with
  | zero => omega
  | succ k ih =>
    rw [mapRange_succ, lookupKey_append]
    by_cases hik : id < k
    · rw [ih hik]
    · have : id = k := by omega
      subst this
      rw [lookupKey_mapRange_ge id id (le_refl id)]
      simp [lookupKey]

lemma msgs_decompose (k n : Nat) :
    (List.range n).map (fun i => mkMsg (k + (i + 1))) =
      (List.range n).map (fun i => mkMsg (k + 1 + i)) := by
  apply List.map_congr_left
  intro a _
  congr 1
  omega

lemma insertAll_msgs_aux (n : Nat) :
    ∀ k : Nat, 1 ≤ k → k + n ≤ REFERENCE_LENGTH + 1 →
    insertAll 5 ((List.range n).map fun i => mkMsg (k + i))
        ⟨some (.natMap (mapRange k)), none⟩ =
      .ok ⟨some (.natMap (mapRange (k + n))), none⟩ := by
  induction n with
  | zero => intro k _ _; simp [insertAll]
  | succ n ih =>
    intro k hk hkn
    rw [List.range_succ_eq_map]
    simp only [List.map_cons, List.map_map, Nat.add_zero, insertAll]
    have hfresh : containsKey (mapRange k) (mkMsg k).id = false := by
      simp only [containsKey, mkMsg]
      rw [lookupKey_mapRange_ge k k (le_refl k)]
      rfl
    have hstep := insert_step_small 4 ⟨some (.natMap (mapRange k)), none⟩ (mapRange k) (mkMsg k)
      rfl hfresh (by rw [mapRange_length]; omega)
    rw [show (4 + 1 : Nat) = 5 from rfl] at hstep
    rw [hstep]
    have hfun : ((fun i => mkMsg (k + i)) ∘ Nat.succ) = fun i => mkMsg (k + (i + 1)) := by
      funext i
      rfl
    rw [hfun, msgs_decompose]
    have heq : k + (n + 1) = k + 1 + n := by omega
    rw [heq]
    have := ih (k + 1) (by omega) (by omega)
    simpa [mkMsg, mapRange_succ] using this

lemma insertAll_msgs (k : Nat) (hk : 1 ≤ k) (h : k ≤ REFERENCE_LENGTH + 1) :
    insertAll 5 (msgs k) ⟨none, none⟩ = .ok ⟨some (.natMap (mapRange k)), none⟩ := by
  obtain ⟨n, rfl⟩ : ∃ n, k = 1 + n := ⟨k - 1, by omega⟩
  rw [msgs, List.range_add, List.map_append]
  rw [insertAll_append]
  have h1 : insertAll 5 ((List.range 1).map mkMsg) ⟨none, none⟩ =
      .ok ⟨some (.natMap (mapRange 1)), none⟩ := by
    simp only [insertAll, List.range_succ, List.range_zero, List.nil_append, List.map_cons,
      List.map_nil]
    rw [insert_step_empty 4 ⟨none, none⟩ (mkMsg 0) rfl]
    rfl
  rw [h1]
  have := insertAll_msgs_aux n 1 (le_refl 1) (by omega)
  simpa using this

/-- Claim C2, counterexample: inserting 501 distinct message ids into an
empty `MessageReferenceList` does NOT produce two shards — the spill test
of `insert` is `len > REFERENCE_LENGTH`, strictly — so the run yields a
single shard (`next` stays absent) whose map holds the 501st id
(id 500). -/
theorem C2_counterexample :
    insertAll 5 (msgs 501) ⟨none, none⟩ = .ok ⟨some (.natMap (mapRange 501)), none⟩
    ∧ nextIsNone ⟨some (.natMap (mapRange 501)), none⟩ = true
    ∧ shardHasKey ⟨some (.natMap (mapRange 501)), none⟩ 500 = true := by
  refine ⟨insertAll_msgs 501 (by omega) (by decide), rfl, ?_⟩
  simp only [shardHasKey, containsKey]
  rw [lookupKey_mapRange_lt 501 500 (by omega)]
  rfl

/-- Claim C2, amended: `insert` recurses into the next shard exactly when
the current shard map holds strictly more than `REFERENCE_LENGTH` (500)
entries — at or below the bound a fresh id is appended to the current map
with `next` untouched, above it the current map is untouched and the
message goes to the next shard (created as a default empty shard when
absent); consequently, inserting 502 distinct ids into an empty list
yields exactly two shards, with the 502nd id (id 501) stored in the second
shard, absent from the first shard map, and retrievable via `get`. -/
theorem C2_amended :
    (∀ (fuel : Nat) (st : MessageReferenceList) (es : List (Nat × Option Val))
        (m : MessageDocument),
      st.messages = some (.natMap es) → containsKey es m.id = false →
      es.length ≤ REFERENCE_LENGTH →
      insert (fuel + 1) st m =
        (.ok (.msg m), { st with messages := some (.natMap (es ++ [(m.id, some (.msg m))])) }))
    ∧ (∀ (fuel : Nat) (st : MessageReferenceList) (es : List (Nat × Option Val))
        (m : MessageDocument),
      st.messages = some (.natMap es) → containsKey es m.id = false →
      es.length > REFERENCE_LENGTH → st.next = none →
      insert (fuel + 2) st m =
        (.ok (.msg m),
         { st with next := some (.refNode (some (.natMap [(m.id, some (.msg m))])) none) }))
    ∧ insertAll 5 (msgs 502) ⟨none, none⟩ =
        .ok ⟨some (.natMap (mapRange 501)),
             some (.refNode (some (.natMap [(501, some (.msg (mkMsg 501)))])) none)⟩
    ∧ shardHasKey
        ⟨some (.natMap (mapRange 501)),
         some (.refNode (some (.natMap [(501, some (.msg (mkMsg 501)))])) none)⟩ 501 = false
    ∧ sndShardHasKey
        ⟨some (.natMap (mapRange 501)),
         some (.refNode (some (.natMap [(501, some (.msg (mkMsg 501)))])) none)⟩ 501 = true
    ∧ chainDepth
        (stVal ⟨some (.natMap (mapRange 501)),
                some (.refNode (some (.natMap [(501, some (.msg (mkMsg 501)))])) none)⟩) = 2
    ∧ get 5
        ⟨some (.natMap (mapRange 501)),
         some (.refNode (some (.natMap [(501, some (.msg (mkMsg 501)))])) none)⟩ 501 =
        .ok (mkMsg 501) := by
  refine ⟨insert_step_small, insert_step_spill_empty, ?_, ?_, rfl, rfl, ?_⟩
  · have hsplit : msgs 502 = msgs 501 ++ [mkMsg 501] := by
      show (List.range (501 + 1)).map mkMsg = (List.range 501).map mkMsg ++ [mkMsg 501]
      rw [List.range_succ, List.map_append]
      rfl
    rw [hsplit, insertAll_append, insertAll_msgs 501 (by omega) (by decide)]
    have hfresh : containsKey (mapRange 501) (mkMsg 501).id = false := by
      simp only [containsKey, mkMsg]
      rw [lookupKey_mapRange_ge 501 501 (le_refl 501)]
      rfl
    have hstep := insert_step_spill_empty 3 ⟨some (.natMap (mapRange 501)), none⟩
      (mapRange 501) (mkMsg 501) rfl hfresh
      (by rw [mapRange_length]; simp [REFERENCE_LENGTH]) rfl
    rw [show (3 + 2 : Nat) = 5 from rfl] at hstep
    show insertAll 5 [mkMsg 501] ⟨some (.natMap (mapRange 501)), none⟩ = _
    simp only [insertAll]
    rw [hstep]
    rfl
  · simp only [shardHasKey, containsKey]
    rw [lookupKey_mapRange_ge 501 501 (le_refl 501)]
    rfl
  · show get (4 + 1) _ _ = _
    rw [get]
    have hl : lookupKey (mapRange 501) 501 = none :=
      lookupKey_mapRange_ge 501 501 (le_refl 501)
    simp only [deserMap, hl]
    rfl

/-- Claim C2, witness for the amended theorem: the at-bound case appends
to the current shard, and the above-bound case (a 501-entry map) spills
into a freshly created second shard. -/
theorem C2_amended_witness :
    insert 1 ⟨some (.natMap []), none⟩ (mkMsg 3) =
      (.ok (.msg (mkMsg 3)), ⟨some (.natMap [(3, some (.msg (mkMsg 3)))]), none⟩)
    ∧ insert 2 ⟨some (.natMap (mapRange 501)), none⟩ (mkMsg 501) =
      (.ok (.msg (mkMsg 501)),
       ⟨some (.natMap (mapRange 501)),
        some (.refNode (some (.natMap [(501, some (.msg (mkMsg 501)))])) none)⟩) := by
  constructor
  · exact C2_amended.1 0 ⟨some (.natMap []), none⟩ [] (mkMsg 3) rfl rfl
      (by simp [REFERENCE_LENGTH])
  · refine C2_amended.2.1 0 ⟨some (.natMap (mapRange 501)), none⟩ (mapRange 501)
      (mkMsg 501) rfl ?_ (by rw [mapRange_length]; simp [REFERENCE_LENGTH]) rfl
    simp only [containsKey, mkMsg]
    rw [lookupKey_mapRange_ge 501 501 (le_refl 501)]
    rfl

/-- Claim C5: the failing input is a two-shard chain whose second shard
holds id 1 live.  `get` retrieves and verifies the message and `count`
sees both shards, but `contains` answers `false`, because its recursion
re-reads the first shard map CID (deserializing it as a default, empty
reference node) instead of following `next`. -/
theorem C5_contains_ignores_next :
    chainHasKey
      (stVal ⟨some (.natMap [(0, some (.msg (mkMsg 0)))]),
              some (.refNode (some (.natMap [(1, some (.msg (mkMsg 1)))])) none)⟩) 1 = true
    ∧ chainFind
        (stVal ⟨some (.natMap [(0, some (.msg (mkMsg 0)))]),
                some (.refNode (some (.natMap [(1, some (.msg (mkMsg 1)))])) none)⟩) 1 =
        some (some (.msg (mkMsg 1)))
    ∧ get 10
        ⟨some (.natMap [(0, some (.msg (mkMsg 0)))]),
         some (.refNode (some (.natMap [(1, some (.msg (mkMsg 1)))])) none)⟩ 1 =
        .ok (mkMsg 1)
    ∧ count 10
        ⟨some (.natMap [(0, some (.msg (mkMsg 0)))]),
         some (.refNode (some (.natMap [(1, some (.msg (mkMsg 1)))])) none)⟩ = 2
    ∧ contains 10
        ⟨some (.natMap [(0, some (.msg (mkMsg 0)))]),
         some (.refNode (some (.natMap [(1, some (.msg (mkMsg 1)))])) none)⟩ 1 = false := by
  exact ⟨rfl, rfl, rfl, rfl, rfl⟩

lemma chainWF_node (m n : Option Val) :
    chainWF (.refNode m n) =
      ((match m with
        | none => true
        | some (.natMap _) => true
        | some _ => false) &&
       (match n with
        | none => true
        | some v => chainWF v)) := by
  cases m with
  | none => cases n <;> rfl
  | some v => cases v <;> cases n <;> rfl

lemma chainHasKey_node (m n : Option Val) (id : Nat) :
    chainHasKey (.refNode m n) id =
      ((match m with
        | some (.natMap es) => containsKey es id
        | _ => false) ||
       (match n with
        | some v => chainHasKey v id
        | none => false)) := by
  cases m with
  | none => cases n <;> rfl
  | some v => cases v <;> cases n <;> rfl

lemma chainDepth_node (m n : Option Val) :
    chainDepth (.refNode m n) =
      (match n with
       | none => 0
       | some v => chainDepth v) + 1 := by
  cases n <;> rfl

lemma chainFind_node (es : List (Nat × Option Val)) (n : Option Val) (id : Nat) :
    chainFind (.refNode (some (.natMap es)) n) id =
      (if containsKey es id then lookupKey es id
       else
         match n with
         | some v2 => chainFind v2 id
         | none => none) := by
  cases n <;> rfl

lemma chainFind_node_nomap (n : Option Val) (id : Nat) :
    chainFind (.refNode none n) id = none := by
  cases n <;> rfl

lemma chainTomb_node (es : List (Nat × Option Val)) (n : Option Val) (id : Nat) :
    chainTomb (.refNode (some (.natMap es)) n) id =
      (if containsKey es id then .refNode (some (.natMap (setKey es id none))) n
       else
         .refNode (some (.natMap es))
           (match n with
            | some v => some (chainTomb v id)
            | none => none)) := by
  cases n <;> rfl

lemma shardKeys_node (m n : Option Val) :
    shardKeys (.refNode m n) =
      ((match m with
        | some (.natMap es) => es.map fun p => p.1
        | _ => []) ::
       (match n with
        | some v => shardKeys v
        | none => [])) := by
  cases m with
  | none => cases n <;> rfl
  | some v => cases v <;> cases n <;> rfl

lemma shardEntriesSans_node (id : Nat) (m n : Option Val) :
    shardEntriesSans id (.refNode m n) =
      ((match m with
        | some (.natMap es) => es.filter fun p => p.1 != id
        | _ => []) ::
       (match n with
        | some v => shardEntriesSans id v
        | none => [])) := by
  cases m with
  | none => cases n <;> rfl
  | some v => cases v <;> cases n <;> rfl

lemma insert_dup_err (fuel : Nat) (st : MessageReferenceList) (es : List (Nat × Option Val))
    (m : MessageDocument) (hm : st.messages = some (.natMap es))
    (hc : containsKey es m.id = true) :
    insert (fuel + 1) st m = (.error .MessageFound, st) := by
  simp only [insert, hm, deserMap, hc, if_true]

lemma insert_fresh_ok : ∀ (fuel : Nat) (st : MessageReferenceList) (m : MessageDocument),
    chainWF (stVal st) = true → chainHasKey (stVal st) m.id = false →
    chainDepth (stVal st) < fuel → ((insert fuel st m).1).isOk = true := by
  intro fuel
  induction fuel with
  | zero =>
    intro st m _ _ hd
    exact absurd hd (Nat.not_lt_zero _)
  | succ fuel ih =>
    intro st m hwf hkey hd
    cases hm : st.messages with
    | none =>
      rw [insert_step_empty fuel st m hm]
      rfl
    | some v =>
      simp only [stVal, hm, chainWF_node, chainHasKey_node, chainDepth_node] at hwf hkey hd
      cases v with
      | msg m0 => simp at hwf
      | refNode a b => simp at hwf
      | natMap es =>
        simp only [Bool.true_and] at hwf
        simp only [Bool.or_eq_false_iff] at hkey
        obtain ⟨hkey1, hkey2⟩ := hkey
        by_cases hlen : es.length ≤ REFERENCE_LENGTH
        · rw [insert_step_small fuel st es m hm hkey1 hlen]
          rfl
        · cases hn : st.next with
          | none =>
            rw [hn] at hd
            obtain ⟨f, rfl⟩ : ∃ f, fuel = f + 1 := ⟨fuel - 1, by omega⟩
            rw [insert_step_spill_empty f st es m hm hkey1 (by omega) hn]
            rfl
          | some v2 =>
            rw [hn] at hwf hkey2 hd
            dsimp only at hwf hkey2 hd
            obtain ⟨m2, n2, rfl⟩ : ∃ m2 n2, v2 = .refNode m2 n2 := by
              cases v2 with
              | refNode m2 n2 => exact ⟨m2, n2, rfl⟩
              | msg m0 => rw [chainWF.eq_def] at hwf; simp at hwf
              | natMap es2 => rw [chainWF.eq_def] at hwf; simp at hwf
            have hrec := ih ⟨m2, n2⟩ m hwf hkey2 (by
              show chainDepth (Val.refNode m2 n2) < fuel
              omega)
            simp only [insert, hm, deserMap, hkey1, Bool.false_eq_true, if_false, hn,
              deserRefList]
            rw [if_pos (show REFERENCE_LENGTH < es.length by omega)]
            cases hres : insert fuel ⟨m2, n2⟩ m with
            | mk r st2 =>
              rw [hres] at hrec
              cases r with
              | error e => simp [Except.isOk, Except.toBool] at hrec
              | ok c => rfl

lemma chainDepth_msg (m : MessageDocument) : chainDepth (.msg m) = 1 := rfl

lemma chainDepth_natMap (es : List (Nat × Option Val)) : chainDepth (.natMap es) = 1 := rfl

lemma chainDepth_pos (v : Val) : 1 ≤ chainDepth v := by
  cases v with
  | msg m => rw [chainDepth_msg]
  | natMap es => rw [chainDepth_natMap]
  | refNode m n => rw [chainDepth_node]; omega

lemma setKey_keys (es : List (Nat × Option Val)) (id : Nat) (v : Option Val) :
    (setKey es id v).map (fun p => p.1) = es.map (fun p => p.1) := by
  simp only [setKey, List.map_map]
  apply List.map_congr_left
  intro p _
  by_cases h : p.1 = id <;> simp [h]

lemma setKey_filter_ne (es : List (Nat × Option Val)) (id : Nat) (v : Option Val) :
    (setKey es id v).filter (fun p => p.1 != id) = es.filter (fun p => p.1 != id) := by
  induction es with
  | nil => rfl
  | cons e es ih =>
    simp only [setKey, List.map_cons, List.filter_cons] at ih ⊢
    by_cases h : e.1 = id
    · simp [h, ih]
    · simp [h, ih]

lemma lookupKey_setKey_self (es : List (Nat × Option Val)) (id : Nat) (v : Option Val)
    (h : containsKey es id = true) :
    lookupKey (setKey es id v) id = some v := by
  induction es with
  | nil => simp [containsKey, lookupKey] at h
  | cons e es ih =>
    obtain ⟨k, w⟩ := e
    by_cases hk : k = id
    · subst hk
      show lookupKey ((if (k, w).1 = k then (k, v) else (k, w)) :: setKey es k v) k = some v
      rw [if_pos rfl]
      show (if k = k then some v else lookupKey (setKey es k v) k) = some v
      rw [if_pos rfl]
    · have h2 : containsKey es id = true := by
        simp [containsKey, lookupKey, hk] at h ⊢
        exact h
      show lookupKey ((if (k, w).1 = id then (id, v) else (k, w)) :: setKey es id v) id = some v
      rw [if_neg hk]
      show (if k = id then some w else lookupKey (setKey es id v) id) = some v
      rw [if_neg hk]
      exact ih h2

lemma chainTomb_refNode (m n : Option Val) (id : Nat) :
    ∃ a b, chainTomb (.refNode m n) id = .refNode a b := by
  cases m with
  | none => exact ⟨none, n, rfl⟩
  | some v1 =>
    cases v1 with
    | msg m1 => exact ⟨some (.msg m1), n, rfl⟩
    | refNode a b => exact ⟨some (.refNode a b), n, rfl⟩
    | natMap es =>
      rw [chainTomb_node]
      by_cases hc : containsKey es id
      · rw [if_pos hc]; exact ⟨_, _, rfl⟩
      · rw [if_neg hc]; exact ⟨_, _, rfl⟩

lemma chainTomb_spec : ∀ (d : Nat) (v : Val) (id : Nat), chainDepth v ≤ d →
    shardKeys (chainTomb v id) = shardKeys v
    ∧ shardEntriesSans id (chainTomb v id) = shardEntriesSans id v
    ∧ (∀ c, chainFind v id = some (some c) → chainFind (chainTomb v id) id = some none) := by
  intro d
  induction d with
  | zero =>
    intro v id hd
    have := chainDepth_pos v
    omega
  | succ d ih =>
    intro v id hd
    cases v with
    | msg m => exact ⟨rfl, rfl, fun c hc => by cases hc⟩
    | natMap es => exact ⟨rfl, rfl, fun c hc => by cases hc⟩
    | refNode m n =>
      cases m with
      | none =>
        refine ⟨rfl, rfl, fun c hc => ?_⟩
        rw [chainFind_node_nomap] at hc
        cases hc
      | some v1 =>
        cases v1 with
        | msg m1 => exact ⟨rfl, rfl, fun c hc => by cases hc⟩
        | refNode a b => exact ⟨rfl, rfl, fun c hc => by cases hc⟩
        | natMap es =>
          rw [chainTomb_node]
          by_cases hck : containsKey es id
          · rw [if_pos hck]
            refine ⟨?_, ?_, ?_⟩
            · rw [shardKeys_node, shardKeys_node]
              simp [setKey_keys]
            · rw [shardEntriesSans_node, shardEntriesSans_node]
              simp [setKey_filter_ne]
            · intro c hc
              rw [chainFind_node]
              have hck2 : containsKey (setKey es id none) id = true := by
                simp [containsKey, lookupKey_setKey_self es id none hck]
              rw [if_pos hck2, lookupKey_setKey_self es id none hck]
          · rw [if_neg hck]
            cases n with
            | none =>
              refine ⟨rfl, rfl, fun c hc => ?_⟩
              rw [chainFind_node, if_neg hck] at hc
              cases hc
            | some v2 =>
              have hd2 : chainDepth v2 ≤ d := by
                rw [chainDepth_node] at hd
                dsimp only at hd
                omega
              obtain ⟨hk2, he2, hf2⟩ := ih v2 id hd2
              refine ⟨?_, ?_, ?_⟩
              · rw [shardKeys_node, shardKeys_node]
                dsimp only
                rw [hk2]
              · rw [shardEntriesSans_node, shardEntriesSans_node]
                dsimp only
                rw [he2]
              · intro c hc
                rw [chainFind_node, if_neg hck] at hc
                dsimp only at hc
                rw [chainFind_node, if_neg hck]
                dsimp only
                exact hf2 c hc

lemma remove_spec : ∀ (fuel : Nat) (st : MessageReferenceList) (id : Nat),
    chainWF (stVal st) = true → chainDepth (stVal st) ≤ fuel →
    ((chainFind (stVal st) id = none ∨ chainFind (stVal st) id = some none) →
      remove fuel st id = (.error .MessageNotFound, st))
    ∧ (∀ c, chainFind (stVal st) id = some (some c) →
      remove fuel st id = (.ok (), mrlOf (chainTomb (stVal st) id))) := by
  intro fuel
  induction fuel with
  | zero =>
    intro st id _ hd
    have := chainDepth_pos (stVal st)
    omega
  | succ fuel ih =>
    intro st id hwf hd
    cases hm : st.messages with
    | none =>
      have hfind : chainFind (stVal st) id = none := by
        simp only [stVal, hm]
        exact chainFind_node_nomap st.next id
      constructor
      · intro _
        simp only [remove, hm]
      · intro c hc
        rw [hfind] at hc
        cases hc
    | some v =>
      rw [show stVal st = .refNode st.messages st.next from rfl, hm] at hwf hd ⊢
      cases v with
      | msg m0 => rw [chainWF_node] at hwf; simp at hwf
      | refNode a b => rw [chainWF_node] at hwf; simp at hwf
      | natMap es =>
        rw [chainWF_node] at hwf
        simp only [Bool.true_and] at hwf
        cases hl : lookupKey es id with
        | some item =>
          have hck : containsKey es id = true := by simp [containsKey, hl]
          have hfind : chainFind (.refNode (some (.natMap es)) st.next) id = some item := by
            rw [chainFind_node, if_pos hck, hl]
          cases item with
          | none =>
            constructor
            · intro _
              simp only [remove, hm, deserMap, hl]
              rfl
            · intro c hc
              rw [hfind] at hc
              cases hc
          | some w =>
            constructor
            · intro habs
              rw [hfind] at habs
              rcases habs with h | h <;> simp at h
            · intro c _
              simp only [remove, hm, deserMap, hl]
              rw [chainTomb_node, if_pos hck]
              rfl
        | none =>
          have hck : containsKey es id = false := by simp [containsKey, hl]
          cases hn : st.next with
          | none =>
            have hfind : chainFind (.refNode (some (.natMap es)) (none : Option Val)) id =
                none := by
              rw [chainFind_node, if_neg (by simp [hck])]
            constructor
            · intro _
              simp only [remove, hm, deserMap, hl, hn]
            · intro c hc
              rw [hfind] at hc
              cases hc
          | some v2 =>
            rw [hn] at hwf
            dsimp only at hwf
            obtain ⟨m2, n2, rfl⟩ : ∃ m2 n2, v2 = .refNode m2 n2 := by
              cases v2 with
              | refNode m2 n2 => exact ⟨m2, n2, rfl⟩
              | msg m0 => rw [chainWF.eq_def] at hwf; simp at hwf
              | natMap es2 => rw [chainWF.eq_def] at hwf; simp at hwf
            have hd2 : chainDepth (stVal ⟨m2, n2⟩) ≤ fuel := by
              rw [hn, chainDepth_node] at hd
              dsimp only at hd
              rw [show stVal ⟨m2, n2⟩ = Val.refNode m2 n2 from rfl]
              omega
            have hfind_eq : chainFind (.refNode (some (.natMap es)) (some (.refNode m2 n2))) id =
                chainFind (.refNode m2 n2) id := by
              rw [chainFind_node, if_neg (by simp [hck])]
            have IH := ih ⟨m2, n2⟩ id hwf hd2
            constructor
            · intro habs
              rw [hfind_eq] at habs
              have hrm := IH.1 habs
              simp only [remove, hm, deserMap, hl, hn, deserRefList]
              rw [hrm]
            · intro c hc
              rw [hfind_eq] at hc
              have hrm := IH.2 c hc
              simp only [remove, hm, deserMap, hl, hn, deserRefList]
              rw [hrm]
              obtain ⟨a, b, hT⟩ := chainTomb_refNode m2 n2 id
              rw [chainTomb_node, if_neg (by simp [hck])]
              dsimp only [stVal]
              rw [hT]
              rfl

/-- Claim C6: on a resolvable shard chain, `remove(id)` fails with
`Error::MessageNotFound` (state untouched) when no shard map reached by
the traversal holds the id or when the owning entry is already
tombstoned; otherwise it succeeds, replacing the owning entry's value
with none in place: the per-shard key lists are identical before and
after, every entry of every shard other than the id's entry is unchanged,
and the id's entry remains present as a tombstone. -/
theorem C6_remove_tombstone_in_place (fuel : Nat) (st : MessageReferenceList) (id : Nat)
    (hwf : chainWF (stVal st) = true) (hd : chainDepth (stVal st) ≤ fuel) :
    ((chainFind (stVal st) id = none ∨ chainFind (stVal st) id = some none) →
      remove fuel st id = (.error .MessageNotFound, st))
    ∧ (∀ c, chainFind (stVal st) id = some (some c) →
      remove fuel st id = (.ok (), mrlOf (chainTomb (stVal st) id))
      ∧ shardKeys (chainTomb (stVal st) id) = shardKeys (stVal st)
      ∧ shardEntriesSans id (chainTomb (stVal st) id) = shardEntriesSans id (stVal st)
      ∧ chainFind (chainTomb (stVal st) id) id = some none) := by
  obtain ⟨h1, h2⟩ := remove_spec fuel st id hwf hd
  obtain ⟨hk, he, hf⟩ := chainTomb_spec (chainDepth (stVal st)) (stVal st) id (le_refl _)
  exact ⟨h1, fun c hc => ⟨h2 c hc, hk, he, hf c hc⟩⟩

/-- Claim C6, witness: removing id 1 from a shard holding ids 1 and 2
tombstones it in place; removing it again, or removing an absent id,
fails with MessageNotFound and leaves the shard untouched. -/
theorem C6_remove_tombstone_in_place_witness :
    remove 3 ⟨some (.natMap [(1, some (.msg (mkMsg 1))), (2, some (.msg (mkMsg 2)))]), none⟩ 1 =
      (.ok (), ⟨some (.natMap [(1, none), (2, some (.msg (mkMsg 2)))]), none⟩)
    ∧ remove 3 ⟨some (.natMap [(1, none), (2, some (.msg (mkMsg 2)))]), none⟩ 1 =
      (.error .MessageNotFound, ⟨some (.natMap [(1, none), (2, some (.msg (mkMsg 2)))]), none⟩)
    ∧ remove 3 ⟨some (.natMap [(1, none), (2, some (.msg (mkMsg 2)))]), none⟩ 9 =
      (.error .MessageNotFound, ⟨some (.natMap [(1, none), (2, some (.msg (mkMsg 2)))]), none⟩) := by
  refine ⟨?_, ?_, ?_⟩
  · exact ((C6_remove_tombstone_in_place 3
      ⟨some (.natMap [(1, some (.msg (mkMsg 1))), (2, some (.msg (mkMsg 2)))]), none⟩ 1
      rfl (by decide)).2 (.msg (mkMsg 1)) rfl).1
  · exact (C6_remove_tombstone_in_place 3
      ⟨some (.natMap [(1, none), (2, some (.msg (mkMsg 2)))]), none⟩ 1
      rfl (by decide)).1 (Or.inr rfl)
  · exact (C6_remove_tombstone_in_place 3
      ⟨some (.natMap [(1, none), (2, some (.msg (mkMsg 2)))]), none⟩ 9
      rfl (by decide)).1 (Or.inl rfl)

/-- Claim C4: on any shard whose map already holds the message id as a
key — live or tombstoned — `insert` fails with `Error::MessageFound`
leaving the shard state (stored map, stored messages, `next` pointer)
exactly unchanged; while on any resolvable chain holding the id in no
shard, `insert` of that message succeeds. -/
theorem C4_insert_duplicate_rejected :
    (∀ (fuel : Nat) (st : MessageReferenceList) (es : List (Nat × Option Val))
        (m : MessageDocument),
      st.messages = some (.natMap es) → containsKey es m.id = true →
      insert (fuel + 1) st m = (.error .MessageFound, st))
    ∧ (∀ (fuel : Nat) (st : MessageReferenceList) (m : MessageDocument),
      chainWF (stVal st) = true → chainHasKey (stVal st) m.id = false →
      chainDepth (stVal st) < fuel → ((insert fuel st m).1).isOk = true) :=
  ⟨insert_dup_err, insert_fresh_ok⟩

/-- Claim C4, witness: a shard whose map holds id 7 as a tombstone rejects
a new message with id 7 unchanged, and accepts one with fresh id 8. -/
theorem C4_insert_duplicate_rejected_witness :
    insert 5 ⟨some (.natMap [(7, none)]), none⟩ (mkMsg 7) =
      (.error .MessageFound, ⟨some (.natMap [(7, none)]), none⟩)
    ∧ ((insert 5 ⟨some (.natMap [(7, none)]), none⟩ (mkMsg 8)).1).isOk = true :=
  ⟨C4_insert_duplicate_rejected.1 4 ⟨some (.natMap [(7, none)]), none⟩ [(7, none)]
      (mkMsg 7) rfl rfl,
   C4_insert_duplicate_rejected.2 5 ⟨some (.natMap [(7, none)]), none⟩ (mkMsg 8)
      rfl rfl (by decide)⟩

end Ref

namespace Root

lemma core_signDoc (kp : Nat) (d : RootDocument) :
    (RootDocument.signDoc kp d).core = d.core := rfl

lemma verify_signDoc (kp : Nat) (d : RootDocument) (h1 : d.identity.did = kp)
    (h2 : d.identity.verify = .ok ()) :
    (RootDocument.signDoc kp d).verify = .ok () := by
  subst h1
  show (if some (RootSig.mk d.identity.did d.core) = some (.mk d.identity.did d.core)
        then d.identity.verify else .error .InvalidSignature) = .ok ()
  rw [if_pos rfl, h2]

lemma setRoot_fst (st : State) (d : RootDocument) (h1 : d.identity.did = st.kp)
    (h2 : d.identity.verify = .ok ()) :
    (setRootDocument st d).1 = .ok () := by
  have hv := verify_signDoc st.kp d h1 h2
  simp only [setRootDocument, hv]
  cases st.cid with
  | none => rfl
  | some old =>
    dsimp only
    split <;> rfl

lemma setRoot_cid (st : State) (d : RootDocument) (h1 : d.identity.did = st.kp)
    (h2 : d.identity.verify = .ok ()) :
    ((setRootDocument st d).2).cid = some (RootDocument.signDoc st.kp d) := by
  have hv := verify_signDoc st.kp d h1 h2
  simp only [setRootDocument, hv]
  cases st.cid with
  | none => rfl
  | some old =>
    dsimp only
    split <;> rfl

lemma setRoot_kp (st : State) (d : RootDocument) (h1 : d.identity.did = st.kp)
    (h2 : d.identity.verify = .ok ()) :
    ((setRootDocument st d).2).kp = st.kp := by
  have hv := verify_signDoc st.kp d h1 h2
  simp only [setRootDocument, hv]
  cases st.cid with
  | none => rfl
  | some old =>
    dsimp only
    split <;> rfl

lemma getRoot_after (st : State) (d : RootDocument) (h1 : d.identity.did = st.kp)
    (h2 : d.identity.verify = .ok ()) :
    getRootDocument (setRootDocument st d).2 = .ok (RootDocument.signDoc st.kp d) := by
  have hc := setRoot_cid st d h1 h2
  have hv := verify_signDoc st.kp d h1 h2
  simp only [getRootDocument, hc, hv]

lemma getRoot_ok_inv (st : State) (R : RootDocument) (hg : getRootDocument st = .ok R) :
    st.cid = some R ∧ R.verify = .ok () := by
  unfold getRootDocument at hg
  cases hc : st.cid with
  | none => rw [hc] at hg; cases hg
  | some d =>
    rw [hc] at hg
    dsimp only at hg
    cases hv : d.verify with
    | error e => rw [hv] at hg; cases hg
    | ok u => rw [hv] at hg; cases hg; exact ⟨rfl, by cases u; exact hv⟩

lemma root_verify_identity (R : RootDocument) (h : R.verify = .ok ()) :
    R.identity.verify = .ok () := by
  unfold RootDocument.verify at h
  split at h
  · exact h
  · cases h

/-- Claim C1: for a root document whose identity belongs to the account,
`set` succeeds and a subsequent `get` returns the freshly signed document,
which agrees with the input on every field except the signature (equal
cores) and whose signature verifies against the account public key. -/
theorem C1_set_get_roundtrip (st : State) (D : RootDocument)
    (h1 : D.identity.did = st.kp) (h2 : D.identity.verify = .ok ()) :
    (setRootDocument st D).1 = .ok ()
    ∧ getRootDocument (setRootDocument st D).2 = .ok (RootDocument.signDoc st.kp D)
    ∧ (RootDocument.signDoc st.kp D).core = D.core
    ∧ (RootDocument.signDoc st.kp D).verify = .ok () :=
  ⟨setRoot_fst st D h1 h2, getRoot_after st D h1 h2, rfl, verify_signDoc st.kp D h1 h2⟩

/-- Claim C1, witness: a concrete account-1 state and document. -/
theorem C1_set_get_roundtrip_witness :
    (setRootDocument (stateOf { identity := sampleIdentity })
        { identity := sampleIdentity, file_index := some 2 }).1 = .ok ()
    ∧ getRootDocument (setRootDocument (stateOf { identity := sampleIdentity })
        { identity := sampleIdentity, file_index := some 2 }).2 =
        .ok (RootDocument.signDoc 1 { identity := sampleIdentity, file_index := some 2 })
    ∧ (RootDocument.signDoc 1 { identity := sampleIdentity, file_index := some 2 }).core =
        RootDocument.core { identity := sampleIdentity, file_index := some 2 }
    ∧ (RootDocument.signDoc 1 { identity := sampleIdentity, file_index := some 2 }).verify =
        .ok () :=
  C1_set_get_roundtrip (stateOf { identity := sampleIdentity })
    { identity := sampleIdentity, file_index := some 2 } (by decide) (by decide)

lemma setRoot_good (st : State) (d : RootDocument) (h1 : d.identity.did = st.kp)
    (h2 : d.identity.verify = .ok ()) (hg : GoodState st) :
    setRootDocument st d =
      (.ok (), ⟨st.kp, some (RootDocument.signDoc st.kp d),
                [RootDocument.signDoc st.kp d], some (RootDocument.signDoc st.kp d)⟩) := by
  have hv := verify_signDoc st.kp d h1 h2
  obtain ⟨hc, hp⟩ | ⟨r, hc, hp⟩ := hg
  · simp only [setRootDocument, hv, hc, hp, insertPin]
    simp
  · by_cases hr : r = RootDocument.signDoc st.kp d
    · subst hr
      simp only [setRootDocument, hv, hc, hp, insertPin]
      simp
    · simp only [setRootDocument, hv, hc, hp, insertPin]
      simp [isPinned, removePin, hr, Ne.symm hr, List.erase_cons_head]

lemma setSeq_snoc (kp : Nat) (dn : RootDocument) :
    ∀ (ds : List RootDocument) (st : State), st.kp = kp → GoodState st →
    (∀ d ∈ ds ++ [dn], validFor kp d) →
    setSeq st (ds ++ [dn]) =
      .ok ⟨kp, some (RootDocument.signDoc kp dn), [RootDocument.signDoc kp dn],
           some (RootDocument.signDoc kp dn)⟩ := by
  intro ds
  induction ds with
  | nil =>
    intro st hkp hgood hv
    obtain ⟨h1, h2⟩ := hv dn (by simp)
    rw [← hkp] at h1
    have hset := setRoot_good st dn h1 h2 hgood
    simp only [List.nil_append, setSeq, hset, hkp]
  | cons d ds ih =>
    intro st hkp hgood hv
    obtain ⟨h1, h2⟩ := hv d (by simp)
    rw [← hkp] at h1
    have hset := setRoot_good st d h1 h2 hgood
    simp only [List.cons_append, setSeq, hset]
    exact ih _ hkp (Or.inr ⟨_, rfl, rfl⟩) fun x hx => hv x (by simp at hx ⊢; exact Or.inr hx)

/-- Claim C3: starting from a fresh account state, a sequence of
successful `set` calls leaves exactly the last produced root CID pinned:
the final state holds the last signed document as current root, pointer
store entry, and sole pin, so the current root is never left unpinned and
every earlier distinct root CID is unpinned.  (Every prefix of the
sequence is itself an instance of this theorem, so the invariant holds
after each call.) -/
theorem C3_pin_discipline (kp : Nat) (ds : List RootDocument) (dn : RootDocument)
    (hv : ∀ d ∈ ds ++ [dn], validFor kp d) :
    setSeq ⟨kp, none, [], none⟩ (ds ++ [dn]) =
      .ok ⟨kp, some (RootDocument.signDoc kp dn), [RootDocument.signDoc kp dn],
           some (RootDocument.signDoc kp dn)⟩
    ∧ isPinned [RootDocument.signDoc kp dn] (RootDocument.signDoc kp dn) = true
    ∧ ∀ d ∈ ds, RootDocument.signDoc kp d ≠ RootDocument.signDoc kp dn →
        isPinned [RootDocument.signDoc kp dn] (RootDocument.signDoc kp d) = false := by
  refine ⟨setSeq_snoc kp dn ds ⟨kp, none, [], none⟩ rfl (Or.inl ⟨rfl, rfl⟩) hv,
    by simp [isPinned], ?_⟩
  intro d _ hne
  simp [isPinned, hne]

/-- Claim C3, witness: two successive sets of distinct documents leave
only the second root pinned. -/
theorem C3_pin_discipline_witness :
    setSeq ⟨1, none, [], none⟩
        ([{ identity := sampleIdentity }] ++ [{ identity := sampleIdentity, file_index := some 3 }]) =
      .ok ⟨1, some (RootDocument.signDoc 1 { identity := sampleIdentity, file_index := some 3 }),
           [RootDocument.signDoc 1 { identity := sampleIdentity, file_index := some 3 }],
           some (RootDocument.signDoc 1 { identity := sampleIdentity, file_index := some 3 })⟩
    ∧ isPinned [RootDocument.signDoc 1 { identity := sampleIdentity, file_index := some 3 }]
        (RootDocument.signDoc 1 { identity := sampleIdentity, file_index := some 3 }) = true
    ∧ isPinned [RootDocument.signDoc 1 { identity := sampleIdentity, file_index := some 3 }]
        (RootDocument.signDoc 1 { identity := sampleIdentity }) = false := by
  have h := C3_pin_discipline 1 [{ identity := sampleIdentity }]
    { identity := sampleIdentity, file_index := some 3 } (by decide)
  exact ⟨h.1, h.2.1, h.2.2 { identity := sampleIdentity } (by simp) (by decide)⟩

lemma addFriend_eq (st : State) (did : DID) (R : RootDocument)
    (hg : getRootDocument st = .ok R) (hmem : did ∉ decodeDids st.kp R.friends) :
    addFriend st did = setRootDocument st
      { R with
        friends := some (ecdhEncrypt st.kp (.dids (decodeDids st.kp R.friends ++ [did]))) } := by
  simp only [addFriend, hg, insertItem, if_neg hmem]
  simp

lemma removeFriend_eq (st : State) (did : DID) (R : RootDocument)
    (hg : getRootDocument st = .ok R) (hmem : did ∈ decodeDids st.kp R.friends) :
    removeFriend st did = setRootDocument st
      { R with friends :=
          if ((decodeDids st.kp R.friends).erase did).isEmpty then none
          else some (ecdhEncrypt st.kp (.dids ((decodeDids st.kp R.friends).erase did))) } := by
  simp only [removeFriend, hg, removeItem, if_pos hmem]

/-- Claim C7: a friends-list write stores the encrypted list only when it
is non-empty — a successful `remove_friend` leaves the root's `friends`
field absent exactly when the remaining list is empty — and hence
`add_friend` followed by `remove_friend` of the same key, starting from a
root with no friends list, ends with the `friends` field cleared to
absent rather than pointing at an empty encrypted blob. -/
theorem C7_empty_list_cleared :
    (∀ (st : State) (did : DID) (R : RootDocument),
      getRootDocument st = .ok R → R.identity.did = st.kp →
      did ∈ decodeDids st.kp R.friends →
      (removeFriend st did).1 = .ok ()
      ∧ (getRootDocument (removeFriend st did).2).map (fun r => r.friends) =
          .ok (if ((decodeDids st.kp R.friends).erase did).isEmpty then none
               else some (ecdhEncrypt st.kp (.dids ((decodeDids st.kp R.friends).erase did)))))
    ∧ (∀ (st : State) (did : DID) (R : RootDocument),
      getRootDocument st = .ok R → R.identity.did = st.kp → R.friends = none →
      (addFriend st did).1 = .ok ()
      ∧ (getRootDocument (addFriend st did).2).map (fun r => r.friends) =
          .ok (some (ecdhEncrypt st.kp (.dids [did])))
      ∧ (removeFriend (addFriend st did).2 did).1 = .ok ()
      ∧ (getRootDocument (removeFriend (addFriend st did).2 did).2).map (fun r => r.friends) =
          .ok none) := by
  constructor
  · intro st did R hg h1 hmem
    have h2 : R.identity.verify = .ok () :=
      root_verify_identity R (getRoot_ok_inv st R hg).2
    rw [removeFriend_eq st did R hg hmem]
    set D : RootDocument :=
      { R with
        friends := if ((decodeDids st.kp R.friends).erase did).isEmpty then none
                   else some (ecdhEncrypt st.kp (.dids ((decodeDids st.kp R.friends).erase did))) }
      with hD
    have h1a : D.identity.did = st.kp := h1
    have h2a : D.identity.verify = .ok () := h2
    refine ⟨setRoot_fst st D h1a h2a, ?_⟩
    rw [getRoot_after st D h1a h2a]
    rfl
  · intro st did R hg h1 hfr
    have h2 : R.identity.verify = .ok () :=
      root_verify_identity R (getRoot_ok_inv st R hg).2
    have hnil : decodeDids st.kp R.friends = [] := by rw [hfr]; rfl
    have ha := addFriend_eq st did R hg (by rw [hnil]; simp)
    rw [hnil] at ha
    simp only [List.nil_append] at ha
    set D1 : RootDocument := { R with friends := some (ecdhEncrypt st.kp (.dids [did])) }
      with hD1
    have h1a : D1.identity.did = st.kp := h1
    have h2a : D1.identity.verify = .ok () := h2
    have hR1 : getRootDocument (setRootDocument st D1).2 =
        .ok (RootDocument.signDoc st.kp D1) := getRoot_after st D1 h1a h2a
    have hkp1 : ((setRootDocument st D1).2).kp = st.kp := setRoot_kp st D1 h1a h2a
    have hdec1 : decodeDids ((setRootDocument st D1).2).kp
        (RootDocument.signDoc st.kp D1).friends = [did] := by
      rw [hkp1]
      show decodeDids st.kp (some (ecdhEncrypt st.kp (.dids [did]))) = [did]
      simp [decodeDids, ecdhEncrypt, ecdhDecrypt]
    have hmem1 : did ∈ decodeDids ((setRootDocument st D1).2).kp
        (RootDocument.signDoc st.kp D1).friends := by
      rw [hdec1]
      simp
    have hb := removeFriend_eq ((setRootDocument st D1).2) did
      (RootDocument.signDoc st.kp D1) hR1 hmem1
    rw [hdec1] at hb
    simp only [List.erase_cons_head, List.isEmpty_nil, if_pos] at hb
    set D2 : RootDocument := { RootDocument.signDoc st.kp D1 with friends := none } with hD2
    have h1b : D2.identity.did = ((setRootDocument st D1).2).kp := by
      rw [hkp1]
      exact h1
    have h2b : D2.identity.verify = .ok () := h2
    refine ⟨by rw [ha]; exact setRoot_fst st D1 h1a h2a,
      by rw [ha, hR1]; rfl, ?_, ?_⟩
    · rw [ha, hb]
      exact setRoot_fst ((setRootDocument st D1).2) D2 h1b h2b
    · rw [ha, hb, getRoot_after ((setRootDocument st D1).2) D2 h1b h2b]
      rfl

/-- Claim C7, witness: account 1 adds then removes friend 5 starting from
a root with no friends list; the final root has the field cleared. -/
theorem C7_empty_list_cleared_witness :
    (removeFriend (stateOf { identity := sampleIdentity, friends := some (ecdhEncrypt 1 (.dids [5])) }) 5).1 = .ok ()
    ∧ (getRootDocument (removeFriend (stateOf { identity := sampleIdentity, friends := some (ecdhEncrypt 1 (.dids [5])) }) 5).2).map (fun r => r.friends) = .ok none
    ∧ (addFriend (stateOf { identity := sampleIdentity }) 5).1 = .ok ()
    ∧ (getRootDocument (removeFriend (addFriend (stateOf { identity := sampleIdentity }) 5).2 5).2).map (fun r => r.friends) = .ok none := by
  have hA := C7_empty_list_cleared.1
    (stateOf { identity := sampleIdentity, friends := some (ecdhEncrypt 1 (.dids [5])) }) 5
    (RootDocument.signDoc 1 { identity := sampleIdentity, friends := some (ecdhEncrypt 1 (.dids [5])) })
    (by decide) (by decide) (by decide)
  have hB := C7_empty_list_cleared.2 (stateOf { identity := sampleIdentity }) 5
    (RootDocument.signDoc 1 { identity := sampleIdentity })
    (by decide) (by decide) (by decide)
  exact ⟨hA.1, by rw [hA.2]; rfl, hB.1, hB.2.2.2⟩

/-- Claim C8, counterexample: removing a request that is absent fails with
`FriendRequestExist` — the very error `add_request` raises on a duplicate —
not a DoesntExist/NotFound-kind error; and adding an already-present
block-by key fails with `PublicKeyIsntBlocked`, the removal-direction
variant, not the Exist-direction `PublicKeyIsBlocked` used by the blocks
family. -/
theorem C8_counterexample :
    removeRequest (stateOf { identity := sampleIdentity }) (.inR 9 0) =
      (.error .FriendRequestExist, stateOf { identity := sampleIdentity })
    ∧ addRequest
        (stateOf { identity := sampleIdentity,
                   request := some (ecdhEncrypt 1 (.reqs [.inR 9 0])) }) (.inR 9 0) =
      (.error .FriendRequestExist,
       stateOf { identity := sampleIdentity,
                 request := some (ecdhEncrypt 1 (.reqs [.inR 9 0])) })
    ∧ addBlockbyKey
        (stateOf { identity := sampleIdentity,
                   block_by := some (ecdhEncrypt 1 (.dids [5])) }) 5 =
      (.error .PublicKeyIsntBlocked,
       stateOf { identity := sampleIdentity,
                 block_by := some (ecdhEncrypt 1 (.dids [5])) })
    ∧ removeBlockbyKey
        (stateOf { identity := sampleIdentity,
                   block_by := some (ecdhEncrypt 1 (.dids [5])) }) 6 =
      (.error .PublicKeyIsntBlocked,
       stateOf { identity := sampleIdentity,
                 block_by := some (ecdhEncrypt 1 (.dids [5])) })
    ∧ Error.FriendRequestExist ≠ Error.FriendDoesntExist
    ∧ Error.PublicKeyIsntBlocked ≠ Error.PublicKeyIsBlocked := by
  refine ⟨?_, ?_, ?_, ?_, by decide, by decide⟩ <;> decide

/-- Claim C8, amended: on every encrypted-list mutation over a readable
root, a duplicate add and a missing remove fail with the state left
exactly as it was (no new root persisted); the variants are `FriendExist`
and `FriendDoesntExist` for friends, `PublicKeyIsBlocked` and
`PublicKeyIsntBlocked` for blocks, `FriendRequestExist` for a duplicate
`add_request`, and — deviating from the Exist/DoesntExist pattern the
claim states — `FriendRequestExist` again for a missing `remove_request`
and `PublicKeyIsntBlocked` for a duplicate `add_blockby_key`
(`remove_blockby_key` on a missing key also gives `PublicKeyIsntBlocked`). -/
theorem C8_amended (st : State) (R : RootDocument) (did : DID) (req : Request)
    (hg : getRootDocument st = .ok R) :
    (did ∈ decodeDids st.kp R.friends →
      addFriend st did = (.error .FriendExist, st))
    ∧ (did ∉ decodeDids st.kp R.friends →
      removeFriend st did = (.error .FriendDoesntExist, st))
    ∧ (did ∈ decodeDids st.kp R.blocks →
      blockKey st did = (.error .PublicKeyIsBlocked, st))
    ∧ (did ∉ decodeDids st.kp R.blocks →
      unblockKey st did = (.error .PublicKeyIsntBlocked, st))
    ∧ (did ∈ decodeDids st.kp R.block_by →
      addBlockbyKey st did = (.error .PublicKeyIsntBlocked, st))
    ∧ (did ∉ decodeDids st.kp R.block_by →
      removeBlockbyKey st did = (.error .PublicKeyIsntBlocked, st))
    ∧ (req ∈ decodeReqs st.kp R.request →
      addRequest st req = (.error .FriendRequestExist, st))
    ∧ (req ∉ decodeReqs st.kp R.request →
      removeRequest st req = (.error .FriendRequestExist, st)) := by
  refine ⟨fun h => ?_, fun h => ?_, fun h => ?_, fun h => ?_,
    fun h => ?_, fun h => ?_, fun h => ?_, fun h => ?_⟩
  · simp only [addFriend, hg, insertItem, if_pos h]
  · simp only [removeFriend, hg, removeItem, if_neg h]
  · simp only [blockKey, hg, insertItem, if_pos h]
  · simp only [unblockKey, hg, removeItem, if_neg h]
  · simp only [addBlockbyKey, hg, insertItem, if_pos h]
  · simp only [removeBlockbyKey, hg, removeItem, if_neg h]
  · simp only [addRequest, hg, insertItem, if_pos h]
  · simp only [removeRequest, hg, removeItem, if_neg h]

/-- Claim C8, witness for the amended theorem: a state holding friend 5,
block 6, block-by 7, and one pending request. -/
theorem C8_amended_witness :
    addFriend
      (stateOf { identity := sampleIdentity, friends := some (ecdhEncrypt 1 (.dids [5])),
                 blocks := some (ecdhEncrypt 1 (.dids [6])),
                 block_by := some (ecdhEncrypt 1 (.dids [7])),
                 request := some (ecdhEncrypt 1 (.reqs [.outR 8 0])) }) 5 =
      (.error .FriendExist,
       stateOf { identity := sampleIdentity, friends := some (ecdhEncrypt 1 (.dids [5])),
                 blocks := some (ecdhEncrypt 1 (.dids [6])),
                 block_by := some (ecdhEncrypt 1 (.dids [7])),
                 request := some (ecdhEncrypt 1 (.reqs [.outR 8 0])) })
    ∧ removeFriend
      (stateOf { identity := sampleIdentity, friends := some (ecdhEncrypt 1 (.dids [5])),
                 blocks := some (ecdhEncrypt 1 (.dids [6])),
                 block_by := some (ecdhEncrypt 1 (.dids [7])),
                 request := some (ecdhEncrypt 1 (.reqs [.outR 8 0])) }) 9 =
      (.error .FriendDoesntExist,
       stateOf { identity := sampleIdentity, friends := some (ecdhEncrypt 1 (.dids [5])),
                 blocks := some (ecdhEncrypt 1 (.dids [6])),
                 block_by := some (ecdhEncrypt 1 (.dids [7])),
                 request := some (ecdhEncrypt 1 (.reqs [.outR 8 0])) })
    ∧ addBlockbyKey
      (stateOf { identity := sampleIdentity, friends := some (ecdhEncrypt 1 (.dids [5])),
                 blocks := some (ecdhEncrypt 1 (.dids [6])),
                 block_by := some (ecdhEncrypt 1 (.dids [7])),
                 request := some (ecdhEncrypt 1 (.reqs [.outR 8 0])) }) 7 =
      (.error .PublicKeyIsntBlocked,
       stateOf { identity := sampleIdentity, friends := some (ecdhEncrypt 1 (.dids [5])),
                 blocks := some (ecdhEncrypt 1 (.dids [6])),
                 block_by := some (ecdhEncrypt 1 (.dids [7])),
                 request := some (ecdhEncrypt 1 (.reqs [.outR 8 0])) })
    ∧ removeRequest
      (stateOf { identity := sampleIdentity, friends := some (ecdhEncrypt 1 (.dids [5])),
                 blocks := some (ecdhEncrypt 1 (.dids [6])),
                 block_by := some (ecdhEncrypt 1 (.dids [7])),
                 request := some (ecdhEncrypt 1 (.reqs [.outR 8 0])) }) (.inR 9 0) =
      (.error .FriendRequestExist,
       stateOf { identity := sampleIdentity, friends := some (ecdhEncrypt 1 (.dids [5])),
                 blocks := some (ecdhEncrypt 1 (.dids [6])),
                 block_by := some (ecdhEncrypt 1 (.dids [7])),
                 request := some (ecdhEncrypt 1 (.reqs [.outR 8 0])) }) := by
  have h := C8_amended
    (stateOf { identity := sampleIdentity, friends := some (ecdhEncrypt 1 (.dids [5])),
               blocks := some (ecdhEncrypt 1 (.dids [6])),
               block_by := some (ecdhEncrypt 1 (.dids [7])),
               request := some (ecdhEncrypt 1 (.reqs [.outR 8 0])) })
    (RootDocument.signDoc 1
      { identity := sampleIdentity, friends := some (ecdhEncrypt 1 (.dids [5])),
        blocks := some (ecdhEncrypt 1 (.dids [6])),
        block_by := some (ecdhEncrypt 1 (.dids [7])),
        request := some (ecdhEncrypt 1 (.reqs [.outR 8 0])) })
    5 (.inR 9 0) (by decide)
  have h7 := C8_amended
    (stateOf { identity := sampleIdentity, friends := some (ecdhEncrypt 1 (.dids [5])),
               blocks := some (ecdhEncrypt 1 (.dids [6])),
               block_by := some (ecdhEncrypt 1 (.dids [7])),
               request := some (ecdhEncrypt 1 (.reqs [.outR 8 0])) })
    (RootDocument.signDoc 1
      { identity := sampleIdentity, friends := some (ecdhEncrypt 1 (.dids [5])),
        blocks := some (ecdhEncrypt 1 (.dids [6])),
        block_by := some (ecdhEncrypt 1 (.dids [7])),
        request := some (ecdhEncrypt 1 (.reqs [.outR 8 0])) })
    7 (.inR 9 0) (by decide)
  have h9 := C8_amended
    (stateOf { identity := sampleIdentity, friends := some (ecdhEncrypt 1 (.dids [5])),
               blocks := some (ecdhEncrypt 1 (.dids [6])),
               block_by := some (ecdhEncrypt 1 (.dids [7])),
               request := some (ecdhEncrypt 1 (.reqs [.outR 8 0])) })
    (RootDocument.signDoc 1
      { identity := sampleIdentity, friends := some (ecdhEncrypt 1 (.dids [5])),
        blocks := some (ecdhEncrypt 1 (.dids [6])),
        block_by := some (ecdhEncrypt 1 (.dids [7])),
        request := some (ecdhEncrypt 1 (.reqs [.outR 8 0])) })
    9 (.inR 9 0) (by decide)
  exact ⟨h.1 (by decide), h9.2.1 (by decide),
    h7.2.2.2.2.1 (by decide),
    h.2.2.2.2.2.2.2 (by decide)⟩

/-- Claim C9: over a readable root and identity, `add_metadata_key` fails
— leaving the state untouched, so a subsequent `identity()` read returns
the prior document — when the key length exceeds
`MAX_METADATA_KEY_LENGTH`, when the value length exceeds
`MAX_METADATA_VALUE_LENGTH` (both via `Error::InvalidLength`, the
LimitExceeded realization carrying the violated bound), or when a fresh
key meets a map already at `MAX_METADATA_ENTRIES` (via `Error::Other`, the
source marking the intent "Max Entries Reached"); `remove_metadata_key` of
a missing key fails via `Error::Other` ("Entry Key Doesnt Exist"). -/
theorem C9_metadata_bounds (st : State) (R : RootDocument) (I : IdentityDocument)
    (key val : String)
    (hg : getRootDocument st = .ok R) (hi : identityOf st = .ok I) :
    (key.utf8ByteSize > MAX_METADATA_KEY_LENGTH →
      addMetadataKey st key val =
        (.error (.InvalidLength key.utf8ByteSize key none (some MAX_METADATA_KEY_LENGTH)), st)
      ∧ identityOf (addMetadataKey st key val).2 = .ok I)
    ∧ (key.utf8ByteSize ≤ MAX_METADATA_KEY_LENGTH →
       val.utf8ByteSize > MAX_METADATA_VALUE_LENGTH →
      addMetadataKey st key val =
        (.error (.InvalidLength val.utf8ByteSize val none (some MAX_METADATA_VALUE_LENGTH)), st))
    ∧ (key.utf8ByteSize ≤ MAX_METADATA_KEY_LENGTH →
       val.utf8ByteSize ≤ MAX_METADATA_VALUE_LENGTH →
       metaContains (I.metadata.arb_data.getD []) key = false →
       (I.metadata.arb_data.getD []).length ≥ MAX_METADATA_ENTRIES →
      addMetadataKey st key val = (.error .Other, st))
    ∧ (metaContains (I.metadata.arb_data.getD []) key = false →
      removeMetadataKey st key = (.error .Other, st)) := by
  refine ⟨fun hk => ?_, fun hk hv => ?_, fun hk hv hfresh hfull => ?_, fun hfresh => ?_⟩
  · have heq : addMetadataKey st key val =
        (.error (.InvalidLength key.utf8ByteSize key none (some MAX_METADATA_KEY_LENGTH)), st) := by
      simp only [addMetadataKey, hg, hi, if_pos hk]
    exact ⟨heq, by rw [heq]; exact hi⟩
  · simp only [addMetadataKey, hg, hi, if_neg (by omega : ¬ key.utf8ByteSize > MAX_METADATA_KEY_LENGTH), if_pos hv]
  · simp only [addMetadataKey, hg, hi,
      if_neg (by omega : ¬ key.utf8ByteSize > MAX_METADATA_KEY_LENGTH),
      if_neg (by omega : ¬ val.utf8ByteSize > MAX_METADATA_VALUE_LENGTH),
      hfresh, decide_eq_true hfull]
    rfl
  · simp only [removeMetadataKey, hg, hi, hfresh]
    rfl

/-- Claim C9, witness: a 17-byte key against the 16-byte bound, and
removal of a key absent from an empty metadata map. -/
theorem C9_metadata_bounds_witness :
    addMetadataKey (stateOf { identity := sampleIdentity }) "aaaaaaaaaaaaaaaaa" "x" =
      (.error (.InvalidLength 17 "aaaaaaaaaaaaaaaaa" none (some MAX_METADATA_KEY_LENGTH)),
       stateOf { identity := sampleIdentity })
    ∧ identityOf (addMetadataKey (stateOf { identity := sampleIdentity })
        "aaaaaaaaaaaaaaaaa" "x").2 = .ok sampleIdentity
    ∧ removeMetadataKey (stateOf { identity := sampleIdentity }) "b" =
      (.error .Other, stateOf { identity := sampleIdentity }) := by
  have h := C9_metadata_bounds (stateOf { identity := sampleIdentity })
    (RootDocument.signDoc 1 { identity := sampleIdentity }) sampleIdentity
    "aaaaaaaaaaaaaaaaa" "x" (by decide) (by decide)
  have h2 := C9_metadata_bounds (stateOf { identity := sampleIdentity })
    (RootDocument.signDoc 1 { identity := sampleIdentity }) sampleIdentity
    "b" "x" (by decide) (by decide)
  have hlen := h.1 (by decide)
  exact ⟨hlen.1, hlen.2, h2.2.2.2 (by decide)⟩

/-- Claim C10: a conversation or community document stored under the
root-level map with its `deleted` flag set — present in the map, with a
verifying signature — is rejected by the point lookups with
`InvalidConversation` / `InvalidCommunity`, indistinguishable from an
absent entry through this interface. -/
theorem C10_deleted_documents_hidden (st : State) (R : RootDocument)
    (hg : getRootDocument st = .ok R) :
    (∀ (m : List (Nat × ConversationDocument)) (id : Nat) (doc : ConversationDocument),
      R.conversations = some m → lookupNat m id = some doc →
      doc.verify = .ok () → doc.deleted = true →
      getConversationDocument st id = .error .InvalidConversation)
    ∧ (∀ (m : List (Nat × CommunityDocument)) (id : Nat) (doc : CommunityDocument),
      R.communities = some m → lookupNat m id = some doc →
      doc.verify = .ok () → doc.deleted = true →
      getCommunityDocument st id = .error .InvalidCommunity) := by
  constructor
  · intro m id doc hc hl hv hd
    simp only [getConversationDocument, hg, hc, hl, hv, hd]
    rfl
  · intro m id doc hc hl hv hd
    simp only [getCommunityDocument, hg, hc, hl, hv, hd]
    rfl

/-- Claim C10, witness: a deleted, validly signed conversation and
community document stored under id 4. -/
theorem C10_deleted_documents_hidden_witness :
    getConversationDocument
      (stateOf { identity := sampleIdentity,
                 conversations := some [(4, ⟨4, 1, true, some (.mk 1 ⟨4, 1, true⟩)⟩)],
                 communities := some [(4, ⟨4, 1, true, some (.mk 1 ⟨4, 1, true⟩)⟩)] }) 4 =
      .error .InvalidConversation
    ∧ getCommunityDocument
      (stateOf { identity := sampleIdentity,
                 conversations := some [(4, ⟨4, 1, true, some (.mk 1 ⟨4, 1, true⟩)⟩)],
                 communities := some [(4, ⟨4, 1, true, some (.mk 1 ⟨4, 1, true⟩)⟩)] }) 4 =
      .error .InvalidCommunity := by
  have h := C10_deleted_documents_hidden
    (stateOf { identity := sampleIdentity,
               conversations := some [(4, ⟨4, 1, true, some (.mk 1 ⟨4, 1, true⟩)⟩)],
               communities := some [(4, ⟨4, 1, true, some (.mk 1 ⟨4, 1, true⟩)⟩)] })
    (RootDocument.signDoc 1
      { identity := sampleIdentity,
        conversations := some [(4, ⟨4, 1, true, some (.mk 1 ⟨4, 1, true⟩)⟩)],
        communities := some [(4, ⟨4, 1, true, some (.mk 1 ⟨4, 1, true⟩)⟩)] })
    (by decide)
  exact ⟨h.1 [(4, ⟨4, 1, true, some (.mk 1 ⟨4, 1, true⟩)⟩)] 4
      ⟨4, 1, true, some (.mk 1 ⟨4, 1, true⟩)⟩ rfl (by decide) (by decide) rfl,
    h.2 [(4, ⟨4, 1, true, some (.mk 1 ⟨4, 1, true⟩)⟩)] 4
      ⟨4, 1, true, some (.mk 1 ⟨4, 1, true⟩)⟩ rfl (by decide) (by decide) rfl⟩

end Root

end Warp
